import Mathlib

/-!
Verification of the ContractorPro document store (`src/FormTool.py`): the
in-memory data model (`EstimateLine`, `OwnerAllowance`), the totals engine
(`compute_totals`, lines 601-611), the CSV encoder (`save_document_csv`,
lines 618-681) and the CSV decoder (`load_quote_from_csv`, lines 684-827).

Modelling conventions:
* Python floats are modelled as rationals (`ℚ`); the source performs only
  addition and multiplication on them.
* A CSV file is a list of rows, each row a list of cells.  A cell is either
  a text cell (`Cell.str`) or a numeric cell (`Cell.num q`): `csv.writer`
  renders a float with Python `str`, `csv.reader` hands that text back, and
  `float(...)` recovers exactly the value.  The printed form of a float is
  nonempty, has no surrounding whitespace, and never equals any of the
  decoder keyword labels (every label contains letters that no float
  rendering contains), which is what `Cell.keyEq` / `Cell.isBlank` encode.
* The decoder source is an index-based `while` loop over the row list that
  only ever moves forward; it is embedded as a left fold over the rows with
  an explicit mode (top level / line-item table / allowance header /
  allowance rows) that mirrors the `continue` and `break` structure of the
  loop.  Each branch is annotated with the source lines it translates.
* File-system access is abstracted: the encoder returns the list of rows it
  writes, and the decoder receives `none` (the path does not exist, line
  698) or `some rows` (the parsed CSV contents, lines 702-704).
-/

namespace FormTool

/-- Calendar date, modelling Python `datetime.date` (year, month, day). -/
structure Date where
  year : ℕ
  month : ℕ
  day : ℕ
deriving DecidableEq

/-- Gregorian leap-year rule used by Python `datetime`. -/
def isLeap (y : ℕ) : Bool :=
  (y % 4 == 0 && y % 100 != 0) || y % 400 == 0

/-- Number of days in a month, as validated by Python `datetime`. -/
def daysInMonth (m y : ℕ) : ℕ :=
  if m = 2 then (if isLeap y then 29 else 28)
  else if m = 4 ∨ m = 6 ∨ m = 9 ∨ m = 11 then 30
  else 31

/-- Python `s.strip()`: remove leading and trailing whitespace.  Defined
over the character list so that it evaluates inside the kernel. -/
def pyStrip (s : String) : String :=
  ⟨((s.data.dropWhile Char.isWhitespace).reverse.dropWhile Char.isWhitespace).reverse⟩

/-- Numeric value of a digit string (digits already validated). -/
def digitsVal (cs : List Char) : ℕ :=
  cs.foldl (fun a c => 10 * a + (c.toNat - '0'.toNat)) 0

/-- Zero-pad a number to two digits, as `strftime` does for `%m` and `%d`. -/
def pad2 (n : ℕ) : String :=
  if n < 10 then "0" ++ toString n else toString n

/-- Translates `format_date` (FormTool.py lines 55-57): render a date as
`MM-DD-YYYY` via `strftime("%m-%d-%Y")`. -/
def format_date (d : Date) : String :=
  pad2 d.month ++ "-" ++ pad2 d.day ++ "-" ++ toString d.year

/-- Translates `parse_mmddyyyy` (FormTool.py lines 60-62), which calls
`datetime.strptime(s, "%m-%d-%Y")`.  Python `_strptime` matches `%m` and
`%d` against one or two digits, `%Y` against exactly four digits, requires
the whole string to be consumed, and validates the day against the month
length (including leap years).  Failure raises `ValueError`, modelled as
`none`. -/
def parse_mmddyyyy (s : String) : Option Date :=
  match s.data.splitOn '-' with
  | [ms, ds, ys] =>
    if 1 ≤ ms.length ∧ ms.length ≤ 2 ∧ ms.all Char.isDigit
        ∧ 1 ≤ ds.length ∧ ds.length ≤ 2 ∧ ds.all Char.isDigit
        ∧ ys.length = 4 ∧ ys.all Char.isDigit then
      let m := digitsVal ms
      let d := digitsVal ds
      let y := digitsVal ys
      if 1 ≤ m ∧ m ≤ 12 ∧ 1 ≤ d ∧ d ≤ daysInMonth m y then
        some ⟨y, m, d⟩
      else none
    else none
  | _ => none

/-- One CSV cell.  `str s` is a text cell; `num q` is a cell holding the
text Python `str` produces for the float `q` (see the module docstring). -/
inductive Cell where
  | str (s : String)
  | num (q : ℚ)
deriving DecidableEq

/-- Exponent suffix of a Python float literal: optional sign then at least
one digit, consuming the whole remainder. -/
def parseExp (cs : List Char) : Option ℤ :=
  let p : ℤ × List Char :=
    match cs with
    | c :: t => if c = '+' then (1, t)
                else if c = '-' then (-1, t)
                else (1, cs)
    | [] => (1, cs)
  if p.2 ≠ [] ∧ p.2.all Char.isDigit then some (p.1 * digitsVal p.2) else none

/-- Models Python `float(s)` on an already-stripped string: optional sign,
decimal digits with an optional point, optional exponent.  Returns `none`
where `float` raises `ValueError`.  The rarely used forms `inf`, `nan` and
digit-group underscores are outside any behaviour the claims touch and are
not modelled. -/
def parsePyFloat (s : String) : Option ℚ :=
  let cs0 := s.data
  let sgn : ℚ × List Char :=
    match cs0 with
    | c :: t => if c = '-' then (-1, t)
                else if c = '+' then (1, t)
                else (1, cs0)
    | [] => (1, cs0)
  let ip := sgn.2.takeWhile Char.isDigit
  let rest1 := sgn.2.dropWhile Char.isDigit
  let fr : List Char × List Char :=
    match rest1 with
    | c :: t => if c = '.' then (t.takeWhile Char.isDigit, t.dropWhile Char.isDigit)
                else ([], rest1)
    | [] => ([], rest1)
  if ip = [] ∧ fr.1 = [] then none
  else
    let mant : ℚ := sgn.1 * ((digitsVal ip : ℚ) + (digitsVal fr.1 : ℚ) / (10 : ℚ) ^ fr.1.length)
    match fr.2 with
    | [] => some mant
    | c :: t =>
      if c = 'e' ∨ c = 'E' then
        (parseExp t).map (fun e => mant * (10 : ℚ) ^ e)
      else none

/-- Cell text compared against a decoder keyword: `row[0].strip() == k`.
A numeric cell never matches (float text has no room for the letters the
keywords contain). -/
def Cell.keyEq (c : Cell) (k : String) : Bool :=
  match c with
  | .str s => pyStrip s == k
  | .num _ => false

/-- Whether `cell.strip()` is empty.  Float text is never empty. -/
def Cell.isBlank : Cell → Bool
  | .str s => pyStrip s == ""
  | .num _ => false

/-- Stripped text of a cell, `cell.strip()`.  For a numeric cell the Lean
rendering of the rational stands in for the Python float text; no claim
inspects that text beyond the facts encoded in `keyEq` and `isBlank`. -/
def Cell.text : Cell → String
  | .str s => pyStrip s
  | .num q => toString q

/-- Result of `Cell.parseFloat`: `some` the value, or `none` where Python
`float(cell)` raises `ValueError`.  Python `float` itself ignores
surrounding whitespace, hence the strip. -/
def Cell.parseFloat : Cell → Option ℚ
  | .num q => some q
  | .str s => parsePyFloat (pyStrip s)

/-- Models Python `float(cell)` with the failure branch already collapsed
to the default `0.0` the decoder substitutes. -/
def cellFloat (c : Cell) : ℚ :=
  (Cell.parseFloat c).getD 0

abbrev Row := List Cell

/-- Guarded text field: `r[k].strip() if len(r) > k else ""`. -/
def textAt (r : Row) (k : ℕ) : String :=
  (r.getD k (.str "")).text

/-- Guarded numeric field of a table row (FormTool.py lines 771-778 and
814-821): `float(r[k]) if len(r) > k and r[k].strip() != "" else 0.0`,
with `ValueError` degraded to `0.0`. -/
def floatAt (r : Row) (k : ℕ) : ℚ :=
  match r.get? k with
  | some c => if c.isBlank then 0 else (Cell.parseFloat c).getD 0
  | none => 0

/-- Mirrors the dataclass `EstimateLine` (FormTool.py lines 69-98).  The
Python field `section` is renamed `sectionLabel` because `section` is a
Lean keyword; all other field names match the source. -/
structure EstimateLine where
  sectionLabel : String := ""
  description : String := ""
  worker_type : String := ""
  hours : ℚ := 0
  rate : ℚ := 0
  detail : String := ""
deriving DecidableEq

/-- Derived line total, `EstimateLine.total` (lines 96-98). -/
def EstimateLine.total (l : EstimateLine) : ℚ := l.hours * l.rate

/-- Mirrors the dataclass `OwnerAllowance` (FormTool.py lines 101-113). -/
structure OwnerAllowance where
  description : String
  quantity : ℚ
  unit_cost : ℚ
deriving DecidableEq

/-- Derived allowance total (lines 111-113). -/
def OwnerAllowance.total (a : OwnerAllowance) : ℚ := a.quantity * a.unit_cost

/-- The totals dictionary built by `compute_totals` and consumed by the
encoder and decoder. -/
structure Totals where
  subtotal : ℚ := 0
  receipts_total : ℚ := 0
  grand_total : ℚ := 0
deriving DecidableEq

/-- Translates `compute_totals` (FormTool.py lines 601-611): the subtotal
is the running sum of the line totals (Python `sum` is a left fold from
zero), and the grand total adds the receipts total. -/
def compute_totals (lines : List EstimateLine) (receipts_total : ℚ) : Totals :=
  let contractor_subtotal := lines.foldl (fun acc l => acc + l.total) 0
  { subtotal := contractor_subtotal
    receipts_total := receipts_total
    grand_total := contractor_subtotal + receipts_total }

/-- The header metadata dictionary built by the decoder (lines 706-713). -/
structure Meta where
  doc_type : String := "quote"
  job_id : String := ""
  project_name : String := ""
  client_name : String := ""
  project_address : String := ""
  doc_date : Date
deriving DecidableEq

/-- The literal allowance-block marker row label (lines 673 and 759). -/
def allowancesMarker : String := "Owner Allowances (client purchases directly)"

/-- Row written for one line item (FormTool.py lines 654-665). -/
def lineRow (l : EstimateLine) : Row :=
  [.str l.sectionLabel, .str l.description, .str l.detail, .str l.worker_type,
   .num l.hours, .num l.rate, .num l.total]

/-- Row written for one allowance (line 677). -/
def allowanceRow (a : OwnerAllowance) : Row :=
  [.str a.description, .num a.quantity, .num a.unit_cost, .num a.total]

/-- The seven-column line-item header row (lines 644-652). -/
def headerRow : Row :=
  [.str "Section", .str "Description", .str "FullDescription", .str "WorkerType",
   .str "Hours/Qty", .str "Rate/UnitPrice", .str "LineTotal"]

/-- Translates `save_document_csv` (FormTool.py lines 618-681), returning
the list of rows written to the CSV file.  Path construction (lines
630-632) and the returned path are not modelled; the claims are about the
file contents. -/
def save_document_csv (job_id doc_type project_name project_address client_name : String)
    (lines : List EstimateLine) (totals : Totals) (allowances : List OwnerAllowance)
    (doc_date : Date) : List Row :=
  [[.str "DocType", .str doc_type],
   [.str "JobID", .str job_id],
   [.str "Project", .str project_name],
   [.str "Client", .str client_name],
   [.str "Address", .str project_address],
   [.str "Date", .str (format_date doc_date)],
   [.str "ReceiptsTotal", .num totals.receipts_total],
   [],
   headerRow]
  ++ lines.map lineRow
  ++ [[],
      [.str "Subtotal", .str "", .str "", .str "", .str "", .str "", .num totals.subtotal],
      [.str "GrandTotal", .str "", .str "", .str "", .str "", .str "", .num totals.grand_total]]
  ++ (if allowances.isEmpty then [] else
      [[],
       [.str allowancesMarker],
       [.str "Description", .str "Quantity", .str "EstUnitCost", .str "EstTotal"]]
      ++ allowances.map allowanceRow
      ++ [[.str "OwnerAllowancesTotal", .str "", .str "", .str "",
           .num (allowances.foldl (fun acc a => acc + a.total) 0)]])

/-- Decoder phase.  The source walks the rows with an index: `top` is the
outer loop (line 723), `table` the line-item loop entered at a `Section`
row (lines 751-791), `allowHeader` the single header row skipped by
`i += 2` after the allowances marker (line 804), and `allowScan` the
allowance loop (lines 805-823). -/
inductive Mode
  | top
  | table
  | allowHeader
  | allowScan
deriving DecidableEq

/-- Full decoder state: the four accumulators of `load_quote_from_csv`
(lines 706-720) plus the loop phase. -/
structure LoadState where
  meta : Meta
  totals : Totals
  lines : List EstimateLine
  allowances : List OwnerAllowance
  mode : Mode
deriving DecidableEq

/-- Line item parsed from a table row (FormTool.py lines 767-789). -/
def rowToLine (r : Row) : EstimateLine :=
  { sectionLabel := textAt r 0
    description := textAt r 1
    detail := textAt r 2
    worker_type := textAt r 3
    hours := floatAt r 4
    rate := floatAt r 5 }

/-- Allowance parsed from an allowance row (lines 813-822). -/
def rowToAllowance (r : Row) : OwnerAllowance :=
  { description := textAt r 0
    quantity := floatAt r 1
    unit_cost := floatAt r 2 }

/-- The three labels that terminate the line-item table (lines 756-760). -/
def isTableTerm (c : Cell) : Bool :=
  c.keyEq "Subtotal" || c.keyEq "GrandTotal" || c.keyEq allowancesMarker

/-- Whether every cell of the row strips to empty (line 763). -/
def rowBlank (r : Row) : Bool := r.all Cell.isBlank

/-- The label the stripped first cell matches, in the order of the `elif`
chain of FormTool.py lines 730-803. -/
inductive TopKey
  | docType
  | jobId
  | project
  | client
  | address
  | date
  | receipts
  | sectionKey
  | subtotal
  | grandTotal
  | marker
  | other
deriving DecidableEq

/-- Dispatch of the `elif` chain (lines 730-803): the first label
`row[0].strip()` equals, in source order.  The eleven labels are pairwise
distinct strings, so at most one comparison can succeed and first match is
the only match. -/
def topKey (c : Cell) : TopKey :=
  if c.keyEq "DocType" then .docType
  else if c.keyEq "JobID" then .jobId
  else if c.keyEq "Project" then .project
  else if c.keyEq "Client" then .client
  else if c.keyEq "Address" then .address
  else if c.keyEq "Date" then .date
  else if c.keyEq "ReceiptsTotal" then .receipts
  else if c.keyEq "Section" then .sectionKey
  else if c.keyEq "Subtotal" then .subtotal
  else if c.keyEq "GrandTotal" then .grandTotal
  else if c.keyEq allowancesMarker then .marker
  else .other

/-- One step of the outer loop on a row in top phase: the `elif` chain of
FormTool.py lines 728-749 and 793-803.  A branch guarded by
`len(row) > 1` that fails its guard falls through the whole chain, which
no other branch of the chain can then match (distinct labels), so the row
is ignored. -/
def stepTop (st : LoadState) (r : Row) : LoadState :=
  match r with
  | [] => st
  | c :: _ =>
    match topKey c with
    | .docType =>
      if 1 < r.length then { st with meta := { st.meta with doc_type := textAt r 1 } } else st
    | .jobId =>
      if 1 < r.length then { st with meta := { st.meta with job_id := textAt r 1 } } else st
    | .project =>
      if 1 < r.length then { st with meta := { st.meta with project_name := textAt r 1 } } else st
    | .client =>
      if 1 < r.length then { st with meta := { st.meta with client_name := textAt r 1 } } else st
    | .address =>
      if 1 < r.length then { st with meta := { st.meta with project_address := textAt r 1 } } else st
    | .date =>
      if 1 < r.length then
        match parse_mmddyyyy (textAt r 1) with
        | some d => { st with meta := { st.meta with doc_date := d } }
        | none => st
      else st
    | .receipts =>
      if 1 < r.length then
        { st with totals := { st.totals with receipts_total := cellFloat (r.getD 1 (.str "")) } }
      else st
    | .sectionKey =>
      { st with mode := .table }
    | .subtotal =>
      { st with totals := { st.totals with subtotal := cellFloat (r.getLast?.getD (.str "")) } }
    | .grandTotal =>
      { st with totals := { st.totals with grand_total := cellFloat (r.getLast?.getD (.str "")) } }
    | .marker =>
      { st with mode := .allowHeader }
    | .other => st

/-- One step of the decoder loop on one row.  In `table` phase a zero-cell
row or a terminator row breaks the inner loop (line 756-761) and, because
of the `continue` at line 791, the very same row is reprocessed by the
outer loop; a row of only blank cells is skipped (lines 763-765); any
other row becomes a line item (lines 767-790).  In `allowScan` phase a
zero-cell row is skipped (lines 807-809), `OwnerAllowancesTotal` ends the
block with the row consumed by the `i += 1` at line 825, and any other row
becomes an allowance. -/
def loadStep (st : LoadState) (r : Row) : LoadState :=
  match st.mode with
  | .top => stepTop st r
  | .table =>
    match r with
    | [] => { st with mode := .top }
    | c :: _ =>
      if isTableTerm c then stepTop { st with mode := .top } r
      else if rowBlank r then st
      else { st with lines := st.lines ++ [rowToLine r] }
  | .allowHeader => { st with mode := .allowScan }
  | .allowScan =>
    match r with
    | [] => st
    | c :: _ =>
      if c.keyEq "OwnerAllowancesTotal" then { st with mode := .top }
      else { st with allowances := st.allowances ++ [rowToAllowance r] }

/-- Initial decoder state (FormTool.py lines 706-720); `today` is
`datetime.date.today()`. -/
def initState (today : Date) : LoadState :=
  { meta := { doc_date := today }
    totals := {}
    lines := []
    allowances := []
    mode := .top }

/-- Translates `load_quote_from_csv` (FormTool.py lines 684-827).  The
argument is `none` when the path does not exist, in which case the source
returns the pair of empty dictionaries and empty lists `({}, [], {}, [])`
(line 700), modelled as `(none, [], none, [])`.  Otherwise the source
reads the rows and runs the decoding loop. -/
def load_quote_from_csv (today : Date) (file : Option (List Row)) :
    Option Meta × List EstimateLine × Option Totals × List OwnerAllowance :=
  match file with
  | none => (none, [], none, [])
  | some rows =>
    let st := rows.foldl loadStep (initState today)
    (some st.meta, st.lines, some st.totals, st.allowances)

/-- Python `totals.get(key, 0.0)` on the totals component of the decoder
result, where the dictionary may be the empty one from the missing-file
branch. -/
def totalsGet (t : Option Totals) (k : String) : ℚ :=
  match t with
  | none => 0
  | some tt =>
    if k = "subtotal" then tt.subtotal
    else if k = "receipts_total" then tt.receipts_total
    else if k = "grand_total" then tt.grand_total
    else 0

/-- First cell of the row matches the keyword (false for a zero-cell row). -/
def firstKeyIs (r : Row) (k : String) : Bool :=
  match r with
  | [] => false
  | c :: _ => c.keyEq k

/-- The row would terminate the line-item table when reached in table
phase: it has no cells, or its first cell is one of the three labels. -/
def firstIsTerm (r : Row) : Bool :=
  match r with
  | [] => false
  | c :: _ => isTableTerm c

/-- Nonempty row whose first cell is not a table terminator: the rows the
table loop consumes without breaking. -/
def goodItem (r : Row) : Bool :=
  match r with
  | [] => false
  | c :: _ => !(isTableTerm c)

/-- Rows after the first row whose first cell is `Section` (claim C7 words:
the table starts at the `Section` header row). -/
def specFindTable : List Row → List Row
  | [] => []
  | r :: rest => if firstKeyIs r "Section" then rest else specFindTable rest

/-- Table scan as the words of claim C7 describe it: consume rows until a
row whose first cell equals `Subtotal`, `GrandTotal` or the allowances
marker, or until end of file; skip any fully blank row (a zero-cell row is
vacuously fully blank) without terminating. -/
def specScanTable : List Row → List EstimateLine
  | [] => []
  | r :: rest =>
    if firstIsTerm r then []
    else if rowBlank r then specScanTable rest
    else rowToLine r :: specScanTable rest

/-- Modelled from the words of claim C7: the line-item list the claim says
the decoder produces from a row sequence. -/
def specC7lines (rows : List Row) : List EstimateLine :=
  specScanTable (specFindTable rows)

/-- Modelled from the words of spec section 4.1 (and claim C8): the exact
row layout the encoder is required to write, phrased independently of
`save_document_csv`. -/
def specLayout (job_id doc_type project_name project_address client_name : String)
    (lines : List EstimateLine) (totals : Totals) (allowances : List OwnerAllowance)
    (doc_date : Date) : List Row :=
  ([[Cell.str "DocType", Cell.str doc_type],
    [Cell.str "JobID", Cell.str job_id],
    [Cell.str "Project", Cell.str project_name],
    [Cell.str "Client", Cell.str client_name],
    [Cell.str "Address", Cell.str project_address],
    [Cell.str "Date", Cell.str (format_date doc_date)],
    [Cell.str "ReceiptsTotal", Cell.num totals.receipts_total]]
   ++ [[]]
   ++ [[Cell.str "Section", Cell.str "Description", Cell.str "FullDescription",
        Cell.str "WorkerType", Cell.str "Hours/Qty", Cell.str "Rate/UnitPrice",
        Cell.str "LineTotal"]]
   ++ lines.map (fun l =>
        [Cell.str l.sectionLabel, Cell.str l.description, Cell.str l.detail,
         Cell.str l.worker_type, Cell.num l.hours, Cell.num l.rate,
         Cell.num (l.hours * l.rate)])
   ++ [[],
       [Cell.str "Subtotal", Cell.str "", Cell.str "", Cell.str "", Cell.str "",
        Cell.str "", Cell.num totals.subtotal],
       [Cell.str "GrandTotal", Cell.str "", Cell.str "", Cell.str "", Cell.str "",
        Cell.str "", Cell.num totals.grand_total]]
   ++ (if allowances = [] then [] else
       [[],
        [Cell.str allowancesMarker],
        [Cell.str "Description", Cell.str "Quantity", Cell.str "EstUnitCost",
         Cell.str "EstTotal"]]
       ++ allowances.map (fun a =>
            [Cell.str a.description, Cell.num a.quantity, Cell.num a.unit_cost,
             Cell.num (a.quantity * a.unit_cost)])
       ++ [[Cell.str "OwnerAllowancesTotal", Cell.str "", Cell.str "", Cell.str "",
            Cell.num ((allowances.map OwnerAllowance.total).sum)]]))

/-- Replace cell `k` of row `i` with the text cell `s` — the corruption of
claim C6. -/
def corruptNumCell (rows : List Row) (i k : ℕ) (s : String) : List Row :=
  rows.set i ((rows.getD i []).set k (Cell.str s))

/-- Expected effect of corrupting numeric cell `k` of a line-item row: the
`Hours/Qty` cell (4) or the `Rate/UnitPrice` cell (5) degrades that field
to zero; the `LineTotal` cell (6) is never read back by the decoder. -/
def zeroNumField (l : EstimateLine) (k : ℕ) : EstimateLine :=
  if k = 4 then { l with hours := 0 }
  else if k = 5 then { l with rate := 0 }
  else l

/-- A line item expressible in the encoder output format, i.e. one the
decoder itself could have produced: its text fields carry no surrounding
whitespace (the decoder strips every text cell) and its section label is
not one of the three table-terminator labels (the decoder never emits such
a line because the scan breaks on those labels). -/
def WFline (l : EstimateLine) : Prop :=
  pyStrip l.sectionLabel = l.sectionLabel
  ∧ pyStrip l.description = l.description
  ∧ pyStrip l.detail = l.detail
  ∧ pyStrip l.worker_type = l.worker_type
  ∧ isTableTerm (Cell.str l.sectionLabel) = false

/-- An allowance expressible in the encoder output format: stripped
description that is not the `OwnerAllowancesTotal` label. -/
def WFallow (a : OwnerAllowance) : Prop :=
  pyStrip a.description = a.description
  ∧ Cell.keyEq (Cell.str a.description) "OwnerAllowancesTotal" = false

/-- A document expressible in the encoder output format (spec wording: a
Document built purely from the encoder's own output format): stripped
header strings, a date whose `MM-DD-YYYY` rendering parses back to itself,
and well-formed line items and allowances. -/
def WFdoc (job_id doc_type project_name project_address client_name : String)
    (lines : List EstimateLine) (allowances : List OwnerAllowance)
    (doc_date : Date) : Prop :=
  pyStrip doc_type = doc_type
  ∧ pyStrip job_id = job_id
  ∧ pyStrip project_name = project_name
  ∧ pyStrip client_name = client_name
  ∧ pyStrip project_address = project_address
  ∧ parse_mmddyyyy (pyStrip (format_date doc_date)) = some doc_date
  ∧ (∀ l ∈ lines, WFline l)
  ∧ (∀ a ∈ allowances, WFallow a)

/-- Python exception kinds the decoder source can raise or catch. -/
inductive PyErr
  | valueError
  | typeError
  | indexError
deriving DecidableEq

/-- Python `row[k]`: raises `IndexError` out of range. -/
def cellE (r : Row) (k : ℕ) : Except PyErr Cell :=
  match r.get? k with
  | some c => .ok c
  | none => .error .indexError

/-- Python `row[-1]`: the last cell, `IndexError` on a zero-cell row. -/
def lastCellE (r : Row) : Except PyErr Cell :=
  match r.getLast? with
  | some c => .ok c
  | none => .error .indexError

/-- Python `float(cell)`: `ValueError` when the text does not parse. -/
def floatE (c : Cell) : Except PyErr ℚ :=
  match Cell.parseFloat c with
  | some q => .ok q
  | none => .error .valueError

/-- Python `try: x except (ValueError, TypeError): x = d` (lines 745-749
and 793-802): other exceptions propagate. -/
def catchVT (x : Except PyErr ℚ) (d : ℚ) : Except PyErr ℚ :=
  match x with
  | .ok v => .ok v
  | .error .valueError => .ok d
  | .error .typeError => .ok d
  | .error e => .error e

/-- Python `try: x except ValueError: x = d` (lines 771-778, 814-821). -/
def catchV (x : Except PyErr ℚ) (d : ℚ) : Except PyErr ℚ :=
  match x with
  | .ok v => .ok v
  | .error .valueError => .ok d
  | .error e => .error e

/-- Exception-level body of `float(r[k]) if len(r) > k and r[k].strip()
!= "" else 0.0`: the length test guards the indexing, so only `float`
can raise here. -/
def floatAtBodyE (r : Row) (k : ℕ) : Except PyErr ℚ :=
  if k < r.length then
    let c := r.getD k (.str "")
    if c.isBlank then .ok 0 else floatE c
  else .ok 0

/-- Exception-level translation of the top-phase `elif` chain, with every
indexing and conversion kept as a possibly-raising operation and the
`try/except` blocks exactly where the source has them. -/
def stepTopE (st : LoadState) (r : Row) : Except PyErr LoadState :=
  match r with
  | [] => .ok st
  | _ :: _ => do
    let kc ← cellE r 0
    match topKey kc with
    | .docType =>
      if 1 < r.length then do
        let v ← cellE r 1
        pure { st with meta := { st.meta with doc_type := v.text } }
      else pure st
    | .jobId =>
      if 1 < r.length then do
        let v ← cellE r 1
        pure { st with meta := { st.meta with job_id := v.text } }
      else pure st
    | .project =>
      if 1 < r.length then do
        let v ← cellE r 1
        pure { st with meta := { st.meta with project_name := v.text } }
      else pure st
    | .client =>
      if 1 < r.length then do
        let v ← cellE r 1
        pure { st with meta := { st.meta with client_name := v.text } }
      else pure st
    | .address =>
      if 1 < r.length then do
        let v ← cellE r 1
        pure { st with meta := { st.meta with project_address := v.text } }
      else pure st
    | .date =>
      if 1 < r.length then do
        let v ← cellE r 1
        match parse_mmddyyyy v.text with
        | some d => pure { st with meta := { st.meta with doc_date := d } }
        | none => pure st
      else pure st
    | .receipts =>
      if 1 < r.length then do
        let v ← cellE r 1
        let q ← catchVT (floatE v) 0
        pure { st with totals := { st.totals with receipts_total := q } }
      else pure st
    | .sectionKey =>
      pure { st with mode := .table }
    | .subtotal => do
      let q ← catchVT ((lastCellE r).bind floatE) 0
      pure { st with totals := { st.totals with subtotal := q } }
    | .grandTotal => do
      let q ← catchVT ((lastCellE r).bind floatE) 0
      pure { st with totals := { st.totals with grand_total := q } }
    | .marker =>
      pure { st with mode := .allowHeader }
    | .other => pure st

/-- Exception-level translation of one decoder loop step. -/
def loadStepE (st : LoadState) (r : Row) : Except PyErr LoadState :=
  match st.mode with
  | .top => stepTopE st r
  | .table =>
    match r with
    | [] => .ok { st with mode := .top }
    | c :: _ =>
      if isTableTerm c then stepTopE { st with mode := .top } r
      else if rowBlank r then pure st
      else do
        let hours ← catchV (floatAtBodyE r 4) 0
        let rate ← catchV (floatAtBodyE r 5) 0
        pure { st with lines := st.lines ++
          [{ sectionLabel := textAt r 0, description := textAt r 1,
             detail := textAt r 2, worker_type := textAt r 3,
             hours := hours, rate := rate }] }
  | .allowHeader => .ok { st with mode := .allowScan }
  | .allowScan =>
    match r with
    | [] => .ok st
    | c :: _ =>
      if c.keyEq "OwnerAllowancesTotal" then pure { st with mode := .top }
      else do
        let qty ← catchV (floatAtBodyE r 1) 0
        let unit ← catchV (floatAtBodyE r 2) 0
        pure { st with allowances := st.allowances ++
          [{ description := textAt r 0, quantity := qty, unit_cost := unit }] }

/-- Run the exception-level decoder loop over all rows, stopping at the
first uncaught exception. -/
def foldE (st : LoadState) : List Row → Except PyErr LoadState
  | [] => .ok st
  | r :: rest =>
    match loadStepE st r with
    | .ok st2 => foldE st2 rest
    | .error e => .error e

/-- Exception-level translation of `load_quote_from_csv` on an existing
file: `.error e` would mean the Python function raises `e` to its caller. -/
def load_quote_from_csvE (today : Date) (rows : List Row) :
    Except PyErr (Option Meta × List EstimateLine × Option Totals × List OwnerAllowance) :=
  (foldE (initState today) rows).map
    (fun st => (some st.meta, st.lines, some st.totals, st.allowances))

/-! ## Helper lemmas -/

/-- Python `sum` is a left fold from zero; rewrite it as a `List.sum`. -/
theorem foldl_add_eq_sum {α : Type} (f : α → ℚ) (xs : List α) (c : ℚ) :
    xs.foldl (fun acc x => acc + f x) c = c + (xs.map f).sum := by
  induction xs generalizing c with
  | nil => simp
  | cons x xs ih => simp [ih, add_assoc]

theorem pyStrip_DocType : pyStrip "DocType" = "DocType" := rfl

theorem pyStrip_JobID : pyStrip "JobID" = "JobID" := rfl

theorem pyStrip_Project : pyStrip "Project" = "Project" := rfl

theorem pyStrip_Client : pyStrip "Client" = "Client" := rfl

theorem pyStrip_Address : pyStrip "Address" = "Address" := rfl

theorem pyStrip_Date : pyStrip "Date" = "Date" := rfl

theorem pyStrip_ReceiptsTotal : pyStrip "ReceiptsTotal" = "ReceiptsTotal" := rfl

theorem pyStrip_Section : pyStrip "Section" = "Section" := rfl

theorem pyStrip_Subtotal : pyStrip "Subtotal" = "Subtotal" := rfl

theorem pyStrip_GrandTotal : pyStrip "GrandTotal" = "GrandTotal" := rfl

theorem pyStrip_marker : pyStrip allowancesMarker = allowancesMarker := rfl

theorem pyStrip_OAT : pyStrip "OwnerAllowancesTotal" = "OwnerAllowancesTotal" := rfl

theorem pyStrip_empty : pyStrip "" = "" := rfl

/-! ## C3: grand total -/

/-- C3: for every list of line items and every receipts total, when no
manual override was supplied (the `compute_totals` path), the computed
grand total equals the subtotal plus the receipts total. -/
theorem C3_grand_total_is_subtotal_plus_receipts
    (lines : List EstimateLine) (receipts_total : ℚ) :
    (compute_totals lines receipts_total).grand_total
      = (compute_totals lines receipts_total).subtotal + receipts_total := rfl

/-! ## C2: subtotal -/

/-- C2: under standard pricing with no overrides, the computed subtotal is
the sum over all line items of quantity times unit rate, and permuting the
line items leaves the subtotal unchanged. -/
theorem C2_subtotal_sum_order_independent
    (lines lines2 : List EstimateLine) (receipts_total : ℚ)
    (h : lines.Perm lines2) :
    (compute_totals lines receipts_total).subtotal
        = (lines.map (fun l => l.hours * l.rate)).sum
    ∧ (compute_totals lines2 receipts_total).subtotal
        = (compute_totals lines receipts_total).subtotal := by
  have e : ∀ ls : List EstimateLine,
      (compute_totals ls receipts_total).subtotal
        = (ls.map (fun l => l.hours * l.rate)).sum := by
    intro ls
    show ls.foldl (fun acc l => acc + l.total) 0 = _
    rw [foldl_add_eq_sum EstimateLine.total ls 0, zero_add]
    rfl
  refine ⟨e lines, ?_⟩
  rw [e lines, e lines2]
  exact (h.map (fun l => l.hours * l.rate)).sum_eq.symm

/-- Witness for C2 at a concrete permutation of two concrete line items. -/
theorem C2_witness :
    ([⟨"", "Demo", "Labor", 1, 500, ""⟩, ⟨"", "Tile", "Material", 10, 12, ""⟩]
        : List EstimateLine).Perm
      [⟨"", "Tile", "Material", 10, 12, ""⟩, ⟨"", "Demo", "Labor", 1, 500, ""⟩]
    ∧ ((compute_totals [⟨"", "Demo", "Labor", 1, 500, ""⟩,
          ⟨"", "Tile", "Material", 10, 12, ""⟩] 0).subtotal
        = (([⟨"", "Demo", "Labor", 1, 500, ""⟩, ⟨"", "Tile", "Material", 10, 12, ""⟩]
            : List EstimateLine).map (fun l => l.hours * l.rate)).sum
      ∧ (compute_totals [⟨"", "Tile", "Material", 10, 12, ""⟩,
          ⟨"", "Demo", "Labor", 1, 500, ""⟩] 0).subtotal
        = (compute_totals [⟨"", "Demo", "Labor", 1, 500, ""⟩,
            ⟨"", "Tile", "Material", 10, 12, ""⟩] 0).subtotal) :=
  ⟨List.Perm.swap _ _ _,
   C2_subtotal_sum_order_independent _ _ 0 (List.Perm.swap _ _ _)⟩

/-! ## C5: missing file -/

/-- C5: decoding a path that does not exist yields an empty line-item
list, an empty allowance list, and totals that read as zero under every
defaulted lookup, with no exception raised (the function is total and
returns the empty-document tuple of FormTool.py line 700). -/
theorem C5_missing_file (today : Date) :
    load_quote_from_csv today none = (none, [], none, [])
    ∧ totalsGet (load_quote_from_csv today none).2.2.1 "subtotal" = 0
    ∧ totalsGet (load_quote_from_csv today none).2.2.1 "receipts_total" = 0
    ∧ totalsGet (load_quote_from_csv today none).2.2.1 "grand_total" = 0 :=
  ⟨rfl, rfl, rfl, rfl⟩

/-! ## C8: encoder layout -/

/-- C8: the encoder writes exactly the layout of spec section 4.1 — the
seven labeled key/value rows, a blank row, the seven-column header, one
row per line item in document order with the line total equal to quantity
times unit rate, a blank row and the `Subtotal` and `GrandTotal` rows with
the value in the seventh column, and, exactly when the allowance list is
nonempty, the allowance block ending in the `OwnerAllowancesTotal` row
carrying the summed allowance totals. -/
theorem C8_encoder_writes_spec_layout
    (job_id doc_type project_name project_address client_name : String)
    (lines : List EstimateLine) (totals : Totals)
    (allowances : List OwnerAllowance) (doc_date : Date) :
    save_document_csv job_id doc_type project_name project_address client_name
        lines totals allowances doc_date
      = specLayout job_id doc_type project_name project_address client_name
        lines totals allowances doc_date := by
  cases allowances with
  | nil => rfl
  | cons a as =>
    simp only [save_document_csv, specLayout, List.isEmpty_cons]
    rw [if_neg (by simp), if_neg (List.cons_ne_nil a as),
      foldl_add_eq_sum OwnerAllowance.total (a :: as) 0, zero_add]
    rfl

/-! ## C4: allowances never reach the totals -/

/-- C4: with computed totals, the encoder output up to and including the
`Subtotal` and `GrandTotal` rows is identical for any two allowance lists,
and the allowance totals are summed only into the final
`OwnerAllowancesTotal` row. -/
theorem C4_allowances_only_in_marker_row
    (job_id doc_type project_name project_address client_name : String)
    (lines : List EstimateLine) (receipts_total : ℚ)
    (as1 as2 : List OwnerAllowance) (doc_date : Date) (h1 : as1 ≠ []) :
    ((save_document_csv job_id doc_type project_name project_address client_name
        lines (compute_totals lines receipts_total) as1 doc_date).take
          (12 + lines.length)
      = (save_document_csv job_id doc_type project_name project_address client_name
        lines (compute_totals lines receipts_total) as2 doc_date).take
          (12 + lines.length))
    ∧ (save_document_csv job_id doc_type project_name project_address client_name
        lines (compute_totals lines receipts_total) as1 doc_date).getLast?
      = some [Cell.str "OwnerAllowancesTotal", Cell.str "", Cell.str "", Cell.str "",
              Cell.num ((as1.map OwnerAllowance.total).sum)] := by
  constructor
  · unfold save_document_csv
    rw [List.take_left' (by simp; omega), List.take_left' (by simp; omega)]
  · obtain ⟨a, as, rfl⟩ := List.exists_cons_of_ne_nil h1
    unfold save_document_csv
    rw [if_neg (by simp), foldl_add_eq_sum OwnerAllowance.total (a :: as) 0,
      zero_add, List.getLast?_append, List.getLast?_concat]
    rfl

/-- Witness for C4 at a concrete nonempty allowance list. -/
theorem C4_witness :
    ((save_document_csv "J0001" "quote" "P" "A" "C"
        [] (compute_totals [] 0) [⟨"Stove", 1, 900⟩] ⟨2024, 1, 15⟩).take 12
      = (save_document_csv "J0001" "quote" "P" "A" "C"
        [] (compute_totals [] 0) [] ⟨2024, 1, 15⟩).take 12)
    ∧ (save_document_csv "J0001" "quote" "P" "A" "C"
        [] (compute_totals [] 0) [⟨"Stove", 1, 900⟩] ⟨2024, 1, 15⟩).getLast?
      = some [Cell.str "OwnerAllowancesTotal", Cell.str "", Cell.str "", Cell.str "",
              Cell.num ((([⟨"Stove", 1, 900⟩] : List OwnerAllowance).map
                OwnerAllowance.total).sum)] :=
  C4_allowances_only_in_marker_row "J0001" "quote" "P" "A" "C" [] 0
    [⟨"Stove", 1, 900⟩] [] ⟨2024, 1, 15⟩ (by simp)

/-! ## Decoder step lemmas -/

theorem loadStep_top (st : LoadState) (r : Row) (h : st.mode = .top) :
    loadStep st r = stepTop st r := by
  obtain ⟨m, t, ls, as, mo⟩ := st
  cases h
  rfl

theorem stepTop_nil (st : LoadState) : stepTop st [] = st := rfl

theorem stepTop_DocType (m : Meta) (t : Totals) (ls : List EstimateLine)
    (as : List OwnerAllowance) (mo : Mode) (v : Cell) :
    stepTop ⟨m, t, ls, as, mo⟩ [.str "DocType", v]
      = ⟨{ m with doc_type := v.text }, t, ls, as, mo⟩ := rfl

theorem stepTop_JobID (m : Meta) (t : Totals) (ls : List EstimateLine)
    (as : List OwnerAllowance) (mo : Mode) (v : Cell) :
    stepTop ⟨m, t, ls, as, mo⟩ [.str "JobID", v]
      = ⟨{ m with job_id := v.text }, t, ls, as, mo⟩ := rfl

theorem stepTop_Project (m : Meta) (t : Totals) (ls : List EstimateLine)
    (as : List OwnerAllowance) (mo : Mode) (v : Cell) :
    stepTop ⟨m, t, ls, as, mo⟩ [.str "Project", v]
      = ⟨{ m with project_name := v.text }, t, ls, as, mo⟩ := rfl

theorem stepTop_Client (m : Meta) (t : Totals) (ls : List EstimateLine)
    (as : List OwnerAllowance) (mo : Mode) (v : Cell) :
    stepTop ⟨m, t, ls, as, mo⟩ [.str "Client", v]
      = ⟨{ m with client_name := v.text }, t, ls, as, mo⟩ := rfl

theorem stepTop_Address (m : Meta) (t : Totals) (ls : List EstimateLine)
    (as : List OwnerAllowance) (mo : Mode) (v : Cell) :
    stepTop ⟨m, t, ls, as, mo⟩ [.str "Address", v]
      = ⟨{ m with project_address := v.text }, t, ls, as, mo⟩ := rfl

theorem stepTop_Date_parsed (m : Meta) (t : Totals) (ls : List EstimateLine)
    (as : List OwnerAllowance) (mo : Mode) (v : Cell) (d : Date)
    (h : parse_mmddyyyy v.text = some d) :
    stepTop ⟨m, t, ls, as, mo⟩ [.str "Date", v]
      = ⟨{ m with doc_date := d }, t, ls, as, mo⟩ := by
  show (match parse_mmddyyyy v.text with
    | some dd => (⟨{ m with doc_date := dd }, t, ls, as, mo⟩ : LoadState)
    | none => ⟨m, t, ls, as, mo⟩) = _
  rw [h]

theorem stepTop_ReceiptsTotal (m : Meta) (t : Totals) (ls : List EstimateLine)
    (as : List OwnerAllowance) (mo : Mode) (q : ℚ) :
    stepTop ⟨m, t, ls, as, mo⟩ [.str "ReceiptsTotal", .num q]
      = ⟨m, { t with receipts_total := q }, ls, as, mo⟩ := rfl

theorem stepTop_Section (m : Meta) (t : Totals) (ls : List EstimateLine)
    (as : List OwnerAllowance) (mo : Mode) (rest : List Cell) :
    stepTop ⟨m, t, ls, as, mo⟩ (.str "Section" :: rest)
      = ⟨m, t, ls, as, .table⟩ := rfl

theorem stepTop_SubtotalRow (m : Meta) (t : Totals) (ls : List EstimateLine)
    (as : List OwnerAllowance) (mo : Mode) (x : ℚ) :
    stepTop ⟨m, t, ls, as, mo⟩
        [.str "Subtotal", .str "", .str "", .str "", .str "", .str "", .num x]
      = ⟨m, { t with subtotal := x }, ls, as, mo⟩ := rfl

theorem stepTop_GrandTotalRow (m : Meta) (t : Totals) (ls : List EstimateLine)
    (as : List OwnerAllowance) (mo : Mode) (x : ℚ) :
    stepTop ⟨m, t, ls, as, mo⟩
        [.str "GrandTotal", .str "", .str "", .str "", .str "", .str "", .num x]
      = ⟨m, { t with grand_total := x }, ls, as, mo⟩ := rfl

theorem stepTop_Marker (m : Meta) (t : Totals) (ls : List EstimateLine)
    (as : List OwnerAllowance) (mo : Mode) :
    stepTop ⟨m, t, ls, as, mo⟩ [.str allowancesMarker]
      = ⟨m, t, ls, as, .allowHeader⟩ := rfl

theorem loadStep_table_nil (m : Meta) (t : Totals) (ls : List EstimateLine)
    (as : List OwnerAllowance) :
    loadStep ⟨m, t, ls, as, .table⟩ [] = ⟨m, t, ls, as, .top⟩ := rfl

theorem loadStep_table_term (m : Meta) (t : Totals) (ls : List EstimateLine)
    (as : List OwnerAllowance) (c : Cell) (rest : List Cell)
    (h : isTableTerm c = true) :
    loadStep ⟨m, t, ls, as, .table⟩ (c :: rest)
      = stepTop ⟨m, t, ls, as, .top⟩ (c :: rest) := by
  show (if isTableTerm c then _ else _) = _
  rw [h]
  rfl

theorem loadStep_allowHeader (m : Meta) (t : Totals) (ls : List EstimateLine)
    (as : List OwnerAllowance) (r : Row) :
    loadStep ⟨m, t, ls, as, .allowHeader⟩ r = ⟨m, t, ls, as, .allowScan⟩ := rfl

theorem loadStep_allowScan_OAT (m : Meta) (t : Totals) (ls : List EstimateLine)
    (as : List OwnerAllowance) (c : Cell) (rest : List Cell)
    (h : c.keyEq "OwnerAllowancesTotal" = true) :
    loadStep ⟨m, t, ls, as, .allowScan⟩ (c :: rest) = ⟨m, t, ls, as, .top⟩ := by
  show (if c.keyEq "OwnerAllowancesTotal" then _ else _) = _
  rw [h]
  rfl

/-- Table phase: rows that never break the scan are consumed into line
items (blank-celled rows skipped), and the fold continues in table phase. -/
theorem foldl_table_scan (m : Meta) (t : Totals) (ls : List EstimateLine)
    (as : List OwnerAllowance) (items rest : List Row)
    (h : ∀ r ∈ items, goodItem r = true) :
    List.foldl loadStep ⟨m, t, ls, as, .table⟩ (items ++ rest)
      = List.foldl loadStep
          ⟨m, t, ls ++ (items.filter (fun r => !rowBlank r)).map rowToLine, as, .table⟩
          rest := by
  induction items generalizing ls with
  | nil => simp
  | cons r items ih =>
    obtain ⟨c, cs, rfl⟩ : ∃ c cs, r = c :: cs := by
      cases r with
      | nil => exact absurd (h [] (by simp)) (by simp [goodItem])
      | cons c cs => exact ⟨c, cs, rfl⟩
    have hterm : isTableTerm c = false := by
      have := h (c :: cs) (by simp)
      simpa [goodItem] using this
    have hrest : ∀ r ∈ items, goodItem r = true := fun r hr => h r (by simp [hr])
    by_cases hb : rowBlank (c :: cs) = true
    · have hstep : loadStep ⟨m, t, ls, as, .table⟩ (c :: cs) = ⟨m, t, ls, as, .table⟩ := by
        show (if isTableTerm c then _ else _) = _
        rw [hterm, hb]
        rfl
      simp only [List.cons_append, List.foldl_cons, hstep, List.filter_cons, hb]
      simpa using ih ls hrest
    · have hb2 : rowBlank (c :: cs) = false := by
        cases hby : rowBlank (c :: cs) with
        | true => exact absurd hby hb
        | false => rfl
      have hstep : loadStep ⟨m, t, ls, as, .table⟩ (c :: cs)
          = ⟨m, t, ls ++ [rowToLine (c :: cs)], as, .table⟩ := by
        show (if isTableTerm c then _ else _) = _
        rw [hterm, hb2]
        rfl
      simp only [List.cons_append, List.foldl_cons, hstep, List.filter_cons, hb2]
      rw [ih (ls ++ [rowToLine (c :: cs)]) hrest]
      simp

/-- Allowance phase: rows with cells whose first cell is not the
`OwnerAllowancesTotal` label are consumed into allowances. -/
theorem foldl_allow_scan (m : Meta) (t : Totals) (ls : List EstimateLine)
    (as : List OwnerAllowance) (arows rest : List Row)
    (h : ∀ r ∈ arows, r ≠ [] ∧ firstKeyIs r "OwnerAllowancesTotal" = false) :
    List.foldl loadStep ⟨m, t, ls, as, .allowScan⟩ (arows ++ rest)
      = List.foldl loadStep ⟨m, t, ls, as ++ arows.map rowToAllowance, .allowScan⟩ rest := by
  induction arows generalizing as with
  | nil => simp
  | cons r arows ih =>
    obtain ⟨c, cs, rfl⟩ : ∃ c cs, r = c :: cs := by
      cases r with
      | nil => exact absurd (h [] (by simp)).1 (by simp)
      | cons c cs => exact ⟨c, cs, rfl⟩
    have hkey : c.keyEq "OwnerAllowancesTotal" = false := by
      have := (h (c :: cs) (by simp)).2
      simpa [firstKeyIs] using this
    have hrest : ∀ r ∈ arows, r ≠ [] ∧ firstKeyIs r "OwnerAllowancesTotal" = false :=
      fun r hr => h r (by simp [hr])
    have hstep : loadStep ⟨m, t, ls, as, .allowScan⟩ (c :: cs)
        = ⟨m, t, ls, as ++ [rowToAllowance (c :: cs)], .allowScan⟩ := by
      show (if c.keyEq "OwnerAllowancesTotal" then _ else _) = _
      rw [hkey]
      rfl
    simp only [List.cons_append, List.foldl_cons, hstep, List.map_cons]
    rw [ih (as ++ [rowToAllowance (c :: cs)]) hrest]
    simp

/-! ## Encoder-row facts -/

theorem loadStep_top_eq (m : Meta) (t : Totals) (ls : List EstimateLine)
    (as : List OwnerAllowance) (r : Row) :
    loadStep ⟨m, t, ls, as, .top⟩ r = stepTop ⟨m, t, ls, as, .top⟩ r := rfl

theorem rowBlank_lineRow (l : EstimateLine) : rowBlank (lineRow l) = false := by
  simp [rowBlank, lineRow, Cell.isBlank, List.all]

theorem goodItem_lineRow (l : EstimateLine) (h : WFline l) :
    goodItem (lineRow l) = true := by
  simp [goodItem, lineRow, h.2.2.2.2]

theorem rowToLine_lineRow (l : EstimateLine) (h : WFline l) :
    rowToLine (lineRow l) = l := by
  obtain ⟨h1, h2, h3, h4, _⟩ := h
  simp [rowToLine, lineRow, textAt, floatAt, Cell.text, Cell.isBlank,
    Cell.parseFloat, h1, h2, h3, h4]

theorem rowToAllowance_allowanceRow (a : OwnerAllowance) (h : WFallow a) :
    rowToAllowance (allowanceRow a) = a := by
  simp [rowToAllowance, allowanceRow, textAt, floatAt, Cell.text, Cell.isBlank,
    Cell.parseFloat, h.1]

theorem load_some (today : Date) (rows : List Row) :
    load_quote_from_csv today (some rows)
      = (some (rows.foldl loadStep (initState today)).meta,
         (rows.foldl loadStep (initState today)).lines,
         some (rows.foldl loadStep (initState today)).totals,
         (rows.foldl loadStep (initState today)).allowances) := rfl

theorem map_rowToLine_lineRow (lines : List EstimateLine)
    (h : ∀ l ∈ lines, WFline l) :
    (lines.map lineRow).map rowToLine = lines := by
  rw [List.map_map,
    show rowToLine ∘ lineRow = fun l => rowToLine (lineRow l) from rfl,
    List.map_congr_left (fun l hl => rowToLine_lineRow l (h l hl)),
    List.map_id']

/-- Decoding an encoder-shaped row list whose line-item block is an
arbitrary list of nonempty, non-terminator, non-blank rows. -/
theorem decode_shape (today : Date)
    (job_id doc_type project_name project_address client_name : String)
    (items : List Row) (totals : Totals) (allowances : List OwnerAllowance)
    (doc_date : Date)
    (hdt : pyStrip doc_type = doc_type) (hji : pyStrip job_id = job_id)
    (hpn : pyStrip project_name = project_name)
    (hcn : pyStrip client_name = client_name)
    (hpa : pyStrip project_address = project_address)
    (hdate : parse_mmddyyyy (pyStrip (format_date doc_date)) = some doc_date)
    (hgood : ∀ r ∈ items, goodItem r = true)
    (hnb : ∀ r ∈ items, rowBlank r = false)
    (hallow : ∀ a ∈ allowances, WFallow a) :
    List.foldl loadStep (initState today)
      ([[.str "DocType", .str doc_type],
        [.str "JobID", .str job_id],
        [.str "Project", .str project_name],
        [.str "Client", .str client_name],
        [.str "Address", .str project_address],
        [.str "Date", .str (format_date doc_date)],
        [.str "ReceiptsTotal", .num totals.receipts_total],
        [],
        headerRow]
       ++ items
       ++ [[],
           [.str "Subtotal", .str "", .str "", .str "", .str "", .str "",
            .num totals.subtotal],
           [.str "GrandTotal", .str "", .str "", .str "", .str "", .str "",
            .num totals.grand_total]]
       ++ (if allowances.isEmpty then [] else
           [[],
            [.str allowancesMarker],
            [.str "Description", .str "Quantity", .str "EstUnitCost", .str "EstTotal"]]
           ++ allowances.map allowanceRow
           ++ [[.str "OwnerAllowancesTotal", .str "", .str "", .str "",
                .num (allowances.foldl (fun acc a => acc + a.total) 0)]]))
      = ⟨{ doc_type := doc_type, job_id := job_id, project_name := project_name,
           client_name := client_name, project_address := project_address,
           doc_date := doc_date },
         totals, items.map rowToLine, allowances, .top⟩ := by
  have hdate2 : parse_mmddyyyy (Cell.str (format_date doc_date)).text = some doc_date := by
    simpa [Cell.text] using hdate
  rw [List.foldl_append, List.foldl_append, List.foldl_append]
  have s1 :
      List.foldl loadStep (initState today)
        [[.str "DocType", .str doc_type],
         [.str "JobID", .str job_id],
         [.str "Project", .str project_name],
         [.str "Client", .str client_name],
         [.str "Address", .str project_address],
         [.str "Date", .str (format_date doc_date)],
         [.str "ReceiptsTotal", .num totals.receipts_total],
         [],
         headerRow]
      = ⟨{ doc_type := doc_type, job_id := job_id, project_name := project_name,
           client_name := client_name, project_address := project_address,
           doc_date := doc_date },
         { subtotal := 0, receipts_total := totals.receipts_total, grand_total := 0 },
         [], [], .table⟩ := by
    simp only [initState, headerRow, List.foldl_cons, List.foldl_nil,
      loadStep_top_eq, stepTop_DocType, stepTop_JobID, stepTop_Project,
      stepTop_Client, stepTop_Address,
      stepTop_Date_parsed _ _ _ _ _ _ _ hdate2,
      stepTop_ReceiptsTotal, stepTop_Section, stepTop_nil,
      Cell.text, hdt, hji, hpn, hcn, hpa]
  rw [s1]
  have s2 :
      List.foldl loadStep
        (⟨{ doc_type := doc_type, job_id := job_id, project_name := project_name,
            client_name := client_name, project_address := project_address,
            doc_date := doc_date },
          { subtotal := 0, receipts_total := totals.receipts_total, grand_total := 0 },
          [], [], .table⟩ : LoadState)
        items
      = ⟨{ doc_type := doc_type, job_id := job_id, project_name := project_name,
           client_name := client_name, project_address := project_address,
           doc_date := doc_date },
         { subtotal := 0, receipts_total := totals.receipts_total, grand_total := 0 },
         items.map rowToLine, [], .table⟩ := by
    have := foldl_table_scan
      { doc_type := doc_type, job_id := job_id, project_name := project_name,
        client_name := client_name, project_address := project_address,
        doc_date := doc_date }
      { subtotal := 0, receipts_total := totals.receipts_total, grand_total := 0 }
      [] [] items [] hgood
    rw [List.append_nil] at this
    rw [this, List.foldl_nil]
    congr 1
    rw [List.filter_eq_self.mpr (fun r hr => by simp [hnb r hr]), List.nil_append]
  rw [s2]
  have s3 :
      List.foldl loadStep
        (⟨{ doc_type := doc_type, job_id := job_id, project_name := project_name,
            client_name := client_name, project_address := project_address,
            doc_date := doc_date },
          { subtotal := 0, receipts_total := totals.receipts_total, grand_total := 0 },
          items.map rowToLine, [], .table⟩ : LoadState)
        [[],
         [.str "Subtotal", .str "", .str "", .str "", .str "", .str "",
          .num totals.subtotal],
         [.str "GrandTotal", .str "", .str "", .str "", .str "", .str "",
          .num totals.grand_total]]
      = ⟨{ doc_type := doc_type, job_id := job_id, project_name := project_name,
           client_name := client_name, project_address := project_address,
           doc_date := doc_date },
         totals, items.map rowToLine, [], .top⟩ := by
    simp only [List.foldl_cons, List.foldl_nil, loadStep_table_nil,
      loadStep_top_eq, stepTop_SubtotalRow, stepTop_GrandTotalRow]
  rw [s3]
  cases hA : allowances with
  | nil => simp
  | cons a as =>
    rw [if_neg (by simp)]
    rw [show ([[], [Cell.str allowancesMarker],
          [Cell.str "Description", Cell.str "Quantity", Cell.str "EstUnitCost",
           Cell.str "EstTotal"]]
        ++ (a :: as).map allowanceRow
        ++ [[Cell.str "OwnerAllowancesTotal", Cell.str "", Cell.str "", Cell.str "",
             Cell.num ((a :: as).foldl (fun acc x => acc + x.total) 0)]])
      = [[], [Cell.str allowancesMarker],
         [Cell.str "Description", Cell.str "Quantity", Cell.str "EstUnitCost",
          Cell.str "EstTotal"]]
        ++ ((a :: as).map allowanceRow
          ++ [[Cell.str "OwnerAllowancesTotal", Cell.str "", Cell.str "", Cell.str "",
               Cell.num ((a :: as).foldl (fun acc x => acc + x.total) 0)]])
      from by rw [List.append_assoc]]
    rw [List.foldl_append]
    have s4 :
        List.foldl loadStep
          (⟨{ doc_type := doc_type, job_id := job_id, project_name := project_name,
              client_name := client_name, project_address := project_address,
              doc_date := doc_date },
            totals, items.map rowToLine, [], .top⟩ : LoadState)
          [[], [Cell.str allowancesMarker],
           [Cell.str "Description", Cell.str "Quantity", Cell.str "EstUnitCost",
            Cell.str "EstTotal"]]
        = ⟨{ doc_type := doc_type, job_id := job_id, project_name := project_name,
             client_name := client_name, project_address := project_address,
             doc_date := doc_date },
           totals, items.map rowToLine, [], .allowScan⟩ := by
      simp only [List.foldl_cons, List.foldl_nil, loadStep_top_eq, stepTop_nil,
        stepTop_Marker, loadStep_allowHeader]
    rw [s4]
    have s5 := foldl_allow_scan
      { doc_type := doc_type, job_id := job_id, project_name := project_name,
        client_name := client_name, project_address := project_address,
        doc_date := doc_date }
      totals (items.map rowToLine) []
      ((a :: as).map allowanceRow)
      [[Cell.str "OwnerAllowancesTotal", Cell.str "", Cell.str "", Cell.str "",
        Cell.num ((a :: as).foldl (fun acc x => acc + x.total) 0)]]
      (by
        intro r hr
        obtain ⟨x, hx, rfl⟩ := List.mem_map.mp hr
        refine ⟨by simp [allowanceRow], ?_⟩
        have := (hallow x (hA ▸ hx)).2
        simpa [allowanceRow, firstKeyIs] using this)
    rw [s5, List.foldl_cons, List.foldl_nil,
      loadStep_allowScan_OAT _ _ _ _ _ _ (by rfl),
      List.map_map,
      show rowToAllowance ∘ allowanceRow = fun x => rowToAllowance (allowanceRow x) from rfl,
      List.map_congr_left (fun x hx =>
        rowToAllowance_allowanceRow x (hallow x (hA ▸ hx))),
      List.map_id', List.nil_append]

/-! ## C1: round trip -/

/-- C1: decoding the file the encoder wrote for any document expressible
in the encoder output format yields exactly the original line items (all
six fields), the original totals, and the original metadata (with the date
recovered from its `MM-DD-YYYY` rendering). -/
theorem C1_round_trip (today : Date)
    (job_id doc_type project_name project_address client_name : String)
    (lines : List EstimateLine) (totals : Totals)
    (allowances : List OwnerAllowance) (doc_date : Date)
    (hwf : WFdoc job_id doc_type project_name project_address client_name
      lines allowances doc_date) :
    load_quote_from_csv today
        (some (save_document_csv job_id doc_type project_name project_address
          client_name lines totals allowances doc_date))
      = (some { doc_type := doc_type, job_id := job_id,
                project_name := project_name, client_name := client_name,
                project_address := project_address, doc_date := doc_date },
         lines, some totals, allowances) := by
  obtain ⟨hdt, hji, hpn, hcn, hpa, hdate, hlines, hallow⟩ := hwf
  have hfold := decode_shape today job_id doc_type project_name project_address
    client_name (lines.map lineRow) totals allowances doc_date
    hdt hji hpn hcn hpa hdate
    (by
      intro r hr
      obtain ⟨l, hl, rfl⟩ := List.mem_map.mp hr
      exact goodItem_lineRow l (hlines l hl))
    (by
      intro r hr
      obtain ⟨l, hl, rfl⟩ := List.mem_map.mp hr
      simp [rowBlank_lineRow])
    hallow
  rw [map_rowToLine_lineRow lines hlines] at hfold
  show (fun st : LoadState => (some st.meta, st.lines, some st.totals, st.allowances))
      (List.foldl loadStep (initState today)
        (save_document_csv job_id doc_type project_name project_address
          client_name lines totals allowances doc_date))
    = _
  unfold save_document_csv
  rw [hfold]

/-- Witness for C1: the spec section 8 scenario, a quote with the two
line items Demo and Tile. -/
theorem C1_witness :
    WFdoc "J0001" "quote" "Kitchen" "1 Main St" "Ann"
      [{ sectionLabel := "", description := "Demo", worker_type := "Labor",
         hours := 1, rate := 500, detail := "" },
       { sectionLabel := "", description := "Tile", worker_type := "Material",
         hours := 10, rate := 12, detail := "" }]
      [⟨"Stove", 1, 900⟩] ⟨2024, 1, 15⟩
    ∧ load_quote_from_csv ⟨2030, 2, 3⟩
        (some (save_document_csv "J0001" "quote" "Kitchen" "1 Main St" "Ann"
          [{ sectionLabel := "", description := "Demo", worker_type := "Labor",
             hours := 1, rate := 500, detail := "" },
           { sectionLabel := "", description := "Tile", worker_type := "Material",
             hours := 10, rate := 12, detail := "" }]
          { subtotal := 620, receipts_total := 0, grand_total := 620 }
          [⟨"Stove", 1, 900⟩] ⟨2024, 1, 15⟩))
      = (some { doc_type := "quote", job_id := "J0001",
                project_name := "Kitchen", client_name := "Ann",
                project_address := "1 Main St", doc_date := ⟨2024, 1, 15⟩ },
         [{ sectionLabel := "", description := "Demo", worker_type := "Labor",
            hours := 1, rate := 500, detail := "" },
          { sectionLabel := "", description := "Tile", worker_type := "Material",
            hours := 10, rate := 12, detail := "" }],
         some { subtotal := 620, receipts_total := 0, grand_total := 620 },
         [⟨"Stove", 1, 900⟩]) :=
  ⟨⟨rfl, rfl, rfl, rfl, rfl, by decide,
     by intro l hl; fin_cases hl <;> exact ⟨rfl, rfl, rfl, rfl, rfl⟩,
     by intro a ha; fin_cases ha; exact ⟨rfl, rfl⟩⟩,
   C1_round_trip ⟨2030, 2, 3⟩ "J0001" "quote" "Kitchen" "1 Main St" "Ann" _ _ _ _
     ⟨rfl, rfl, rfl, rfl, rfl, by decide,
      by intro l hl; fin_cases hl <;> exact ⟨rfl, rfl, rfl, rfl, rfl⟩,
      by intro a ha; fin_cases ha; exact ⟨rfl, rfl⟩⟩⟩

/-! ## C6: one corrupted numeric cell -/

theorem set4_lineRow (l : EstimateLine) (x : Cell) :
    (lineRow l).set 4 x
      = [.str l.sectionLabel, .str l.description, .str l.detail,
         .str l.worker_type, x, .num l.rate, .num l.total] := rfl

theorem set5_lineRow (l : EstimateLine) (x : Cell) :
    (lineRow l).set 5 x
      = [.str l.sectionLabel, .str l.description, .str l.detail,
         .str l.worker_type, .num l.hours, x, .num l.total] := rfl

theorem set6_lineRow (l : EstimateLine) (x : Cell) :
    (lineRow l).set 6 x
      = [.str l.sectionLabel, .str l.description, .str l.detail,
         .str l.worker_type, .num l.hours, .num l.rate, x] := rfl

theorem goodItem_corrupt (l : EstimateLine) (h : WFline l) (k : ℕ)
    (hk : k = 4 ∨ k = 5 ∨ k = 6) (s : String) :
    goodItem ((lineRow l).set k (.str s)) = true := by
  rcases hk with rfl | rfl | rfl
  · rw [set4_lineRow]
    simp [goodItem, h.2.2.2.2]
  · rw [set5_lineRow]
    simp [goodItem, h.2.2.2.2]
  · rw [set6_lineRow]
    simp [goodItem, h.2.2.2.2]

theorem rowBlank_corrupt (l : EstimateLine) (k : ℕ)
    (hk : k = 4 ∨ k = 5 ∨ k = 6) (s : String) :
    rowBlank ((lineRow l).set k (.str s)) = false := by
  rcases hk with rfl | rfl | rfl
  · rw [set4_lineRow]
    simp [rowBlank, Cell.isBlank, List.all]
  · rw [set5_lineRow]
    simp [rowBlank, Cell.isBlank, List.all]
  · rw [set6_lineRow]
    simp [rowBlank, Cell.isBlank, List.all]

theorem rowToLine_corrupt (l : EstimateLine) (h : WFline l) (k : ℕ)
    (hk : k = 4 ∨ k = 5 ∨ k = 6) (s : String)
    (hs : parsePyFloat (pyStrip s) = none) :
    rowToLine ((lineRow l).set k (.str s)) = zeroNumField l k := by
  obtain ⟨h1, h2, h3, h4, _⟩ := h
  rcases hk with rfl | rfl | rfl
  · rw [set4_lineRow]
    simp [rowToLine, zeroNumField, textAt, floatAt, Cell.text, Cell.isBlank,
      Cell.parseFloat, hs, h1, h2, h3, h4, ite_self]
  · rw [set5_lineRow]
    simp [rowToLine, zeroNumField, textAt, floatAt, Cell.text, Cell.isBlank,
      Cell.parseFloat, hs, h1, h2, h3, h4, ite_self]
  · rw [set6_lineRow]
    simp [rowToLine, zeroNumField, textAt, floatAt, Cell.text, Cell.isBlank,
      Cell.parseFloat, hs, h1, h2, h3, h4]

theorem getD_mid {α : Type} (A M1 M2 C1 C2 : List α) (x d : α) (n : ℕ)
    (hn : n = A.length + M1.length) :
    (((A ++ (M1 ++ ([x] ++ M2))) ++ C1) ++ C2).getD n d = x := by
  subst hn
  rw [List.getD_eq_getElem?_getD,
    List.getElem?_append,
    if_pos (by simp only [List.length_append, List.length_singleton]; omega),
    List.getElem?_append,
    if_pos (by simp only [List.length_append, List.length_singleton]; omega),
    List.getElem?_append, if_neg (by omega),
    Nat.add_sub_cancel_left,
    List.getElem?_append, if_neg (by omega),
    Nat.sub_self]
  simp

theorem set_mid {α : Type} (A M1 M2 C1 C2 : List α) (x y : α) (n : ℕ)
    (hn : n = A.length + M1.length) :
    (((A ++ (M1 ++ ([x] ++ M2))) ++ C1) ++ C2).set n y
      = ((A ++ (M1 ++ ([y] ++ M2))) ++ C1) ++ C2 := by
  subst hn
  rw [List.set_append,
    if_pos (by simp only [List.length_append, List.length_singleton]; omega),
    List.set_append,
    if_pos (by simp only [List.length_append, List.length_singleton]; omega),
    List.set_append, if_neg (by omega),
    Nat.add_sub_cancel_left,
    List.set_append, if_neg (by omega),
    Nat.sub_self]
  simp

/-- C6: corrupting exactly one numeric cell (`Hours/Qty`, `Rate/UnitPrice`
or `LineTotal`) of one line-item row of an encoded file with a non-numeric
string makes that decoded field `0.0` (the `LineTotal` cell is never read
back at all), the decode completes, and every other field of that row and
every other row decodes exactly as without the corruption. -/
theorem C6_corrupted_numeric_cell (today : Date)
    (job_id doc_type project_name project_address client_name : String)
    (pre post : List EstimateLine) (l : EstimateLine) (totals : Totals)
    (allowances : List OwnerAllowance) (doc_date : Date)
    (hwf : WFdoc job_id doc_type project_name project_address client_name
      (pre ++ [l] ++ post) allowances doc_date)
    (k : ℕ) (hk : k = 4 ∨ k = 5 ∨ k = 6) (s : String)
    (hs : parsePyFloat (pyStrip s) = none) :
    load_quote_from_csv today
        (some (corruptNumCell
          (save_document_csv job_id doc_type project_name project_address
            client_name (pre ++ [l] ++ post) totals allowances doc_date)
          (9 + pre.length) k s))
      = (some { doc_type := doc_type, job_id := job_id,
                project_name := project_name, client_name := client_name,
                project_address := project_address, doc_date := doc_date },
         pre ++ [zeroNumField l k] ++ post, some totals, allowances) := by
  obtain ⟨hdt, hji, hpn, hcn, hpa, hdate, hlines, hallow⟩ := hwf
  have hl : WFline l := hlines l (by simp)
  have hpre : ∀ x ∈ pre, WFline x := fun x hx => hlines x (by simp [hx])
  have hpost : ∀ x ∈ post, WFline x := fun x hx => hlines x (by simp [hx])
  have hmap : (pre ++ [l] ++ post).map lineRow
      = pre.map lineRow ++ [lineRow l] ++ post.map lineRow := by simp
  have hrows : corruptNumCell
      (save_document_csv job_id doc_type project_name project_address
        client_name (pre ++ [l] ++ post) totals allowances doc_date)
      (9 + pre.length) k s
      = [[.str "DocType", .str doc_type],
         [.str "JobID", .str job_id],
         [.str "Project", .str project_name],
         [.str "Client", .str client_name],
         [.str "Address", .str project_address],
         [.str "Date", .str (format_date doc_date)],
         [.str "ReceiptsTotal", .num totals.receipts_total],
         [],
         headerRow]
        ++ (pre.map lineRow ++ [(lineRow l).set k (.str s)] ++ post.map lineRow)
        ++ [[],
            [.str "Subtotal", .str "", .str "", .str "", .str "", .str "",
             .num totals.subtotal],
            [.str "GrandTotal", .str "", .str "", .str "", .str "", .str "",
             .num totals.grand_total]]
        ++ (if allowances.isEmpty then [] else
            [[],
             [.str allowancesMarker],
             [.str "Description", .str "Quantity", .str "EstUnitCost", .str "EstTotal"]]
            ++ allowances.map allowanceRow
            ++ [[.str "OwnerAllowancesTotal", .str "", .str "", .str "",
                 .num (allowances.foldl (fun acc a => acc + a.total) 0)]]) := by
    unfold corruptNumCell save_document_csv
    rw [hmap, List.append_assoc (pre.map lineRow),
      getD_mid _ _ _ _ _ _ _ _ (by simp),
      set_mid _ _ _ _ _ _ _ _ (by simp),
      ← List.append_assoc (pre.map lineRow)]
  rw [hrows, load_some]
  rw [decode_shape today job_id doc_type project_name project_address client_name
    (pre.map lineRow ++ [(lineRow l).set k (.str s)] ++ post.map lineRow)
    totals allowances doc_date hdt hji hpn hcn hpa hdate
    (by
      intro r hr
      rcases List.mem_append.mp hr with hr | hr
      · rcases List.mem_append.mp hr with hr | hr
        · obtain ⟨x, hx, rfl⟩ := List.mem_map.mp hr
          exact goodItem_lineRow x (hpre x hx)
        · rw [List.mem_singleton.mp hr]
          exact goodItem_corrupt l hl k hk s
      · obtain ⟨x, hx, rfl⟩ := List.mem_map.mp hr
        exact goodItem_lineRow x (hpost x hx))
    (by
      intro r hr
      rcases List.mem_append.mp hr with hr | hr
      · rcases List.mem_append.mp hr with hr | hr
        · obtain ⟨x, hx, rfl⟩ := List.mem_map.mp hr
          exact rowBlank_lineRow x
        · rw [List.mem_singleton.mp hr]
          exact rowBlank_corrupt l k hk s
      · obtain ⟨x, hx, rfl⟩ := List.mem_map.mp hr
        exact rowBlank_lineRow x)
    hallow]
  have hmaplines :
      ((pre.map lineRow ++ [(lineRow l).set k (.str s)] ++ post.map lineRow).map rowToLine)
        = pre ++ [zeroNumField l k] ++ post := by
    rw [List.map_append, List.map_append, List.map_singleton,
      map_rowToLine_lineRow pre hpre, map_rowToLine_lineRow post hpost,
      rowToLine_corrupt l hl k hk s hs]
  rw [hmaplines]

/-- Witness for C6: corrupting the `Rate/UnitPrice` cell of the second
line item with the text `oops`. -/
theorem C6_witness :
    load_quote_from_csv ⟨2030, 2, 3⟩
        (some (corruptNumCell
          (save_document_csv "J0001" "quote" "Kitchen" "1 Main St" "Ann"
            ([{ sectionLabel := "", description := "Demo", worker_type := "Labor",
                hours := 1, rate := 500, detail := "" }]
              ++ [{ sectionLabel := "", description := "Tile", worker_type := "Material",
                    hours := 10, rate := 12, detail := "" }] ++ [])
            { subtotal := 620, receipts_total := 0, grand_total := 620 }
            [] ⟨2024, 1, 15⟩)
          (9 + 1) 5 "oops"))
      = (some { doc_type := "quote", job_id := "J0001",
                project_name := "Kitchen", client_name := "Ann",
                project_address := "1 Main St", doc_date := ⟨2024, 1, 15⟩ },
         [(⟨"", "Demo", "Labor", 1, 500, ""⟩ : EstimateLine)]
           ++ [zeroNumField (⟨"", "Tile", "Material", 10, 12, ""⟩ : EstimateLine) 5]
           ++ [],
         some { subtotal := 620, receipts_total := 0, grand_total := 620 },
         []) := by
  have h := C6_corrupted_numeric_cell ⟨2030, 2, 3⟩ "J0001" "quote" "Kitchen"
    "1 Main St" "Ann"
    [{ sectionLabel := "", description := "Demo", worker_type := "Labor",
       hours := 1, rate := 500, detail := "" }]
    []
    { sectionLabel := "", description := "Tile", worker_type := "Material",
      hours := 10, rate := 12, detail := "" }
    { subtotal := 620, receipts_total := 0, grand_total := 620 }
    [] ⟨2024, 1, 15⟩
    ⟨rfl, rfl, rfl, rfl, rfl, by decide,
     by intro x hx; fin_cases hx <;> exact ⟨rfl, rfl, rfl, rfl, rfl⟩,
     by intro a ha; exact absurd ha (by simp)⟩
    5 (by decide) "oops" (by decide)
  simpa using h

/-! ## C7: table extent -/

theorem Cell.keyEq_unique (c : Cell) (k1 k2 : String) (h : c.keyEq k1 = true)
    (hne : k1 ≠ k2) : c.keyEq k2 = false := by
  cases c with
  | num q => rfl
  | str s =>
    simp only [Cell.keyEq, beq_iff_eq] at h ⊢
    simp [h, hne]

theorem stepTop_lines (st : LoadState) (r : Row) :
    (stepTop st r).lines = st.lines := by
  cases r with
  | nil => rfl
  | cons c cs =>
    cases h : topKey c
    all_goals simp only [stepTop, h]
    all_goals repeat' split
    all_goals rfl

theorem stepTop_allowances (st : LoadState) (r : Row) :
    (stepTop st r).allowances = st.allowances := by
  cases r with
  | nil => rfl
  | cons c cs =>
    cases h : topKey c
    all_goals simp only [stepTop, h]
    all_goals repeat' split
    all_goals rfl

theorem stepTop_mode_cases (st : LoadState) (c : Cell) (cs : List Cell) :
    (stepTop st (c :: cs)).mode = st.mode
      ∨ topKey c = .sectionKey ∨ topKey c = .marker := by
  cases h : topKey c
  all_goals simp only [stepTop, h]
  all_goals repeat' split
  all_goals simp

theorem stepTop_mode_keep (st : LoadState) (c : Cell) (cs : List Cell)
    (h1 : topKey c ≠ .sectionKey) (h2 : topKey c ≠ .marker) :
    (stepTop st (c :: cs)).mode = st.mode := by
  rcases stepTop_mode_cases st c cs with hm | hk | hk
  · exact hm
  · exact absurd hk h1
  · exact absurd hk h2

theorem stepTop_mode_no_section (st : LoadState) (c : Cell) (cs : List Cell)
    (h1 : topKey c ≠ .sectionKey) :
    (stepTop st (c :: cs)).mode = st.mode
      ∨ (stepTop st (c :: cs)).mode = .allowHeader := by
  cases h : topKey c
  all_goals simp only [stepTop, h]
  all_goals repeat' split
  all_goals simp_all

set_option maxHeartbeats 2000000 in
theorem keyEq_section_of_topKey (c : Cell) (h : topKey c = .sectionKey) :
    c.keyEq "Section" = true := by
  unfold topKey at h
  repeat' split at h
  all_goals simp_all

set_option maxHeartbeats 2000000 in
theorem keyEq_marker_of_topKey (c : Cell) (h : topKey c = .marker) :
    c.keyEq allowancesMarker = true := by
  unfold topKey at h
  repeat' split at h
  all_goals simp_all

theorem topKey_ne_section (c : Cell) (h : c.keyEq "Section" = false) :
    topKey c ≠ .sectionKey :=
  fun hk => absurd (keyEq_section_of_topKey c hk) (by simp [h])

theorem topKey_ne_marker (c : Cell) (h : c.keyEq allowancesMarker = false) :
    topKey c ≠ .marker :=
  fun hk => absurd (keyEq_marker_of_topKey c hk) (by simp [h])

theorem topKey_section_of_keyEq (c : Cell) (h : c.keyEq "Section" = true) :
    topKey c = .sectionKey := by
  unfold topKey
  rw [Cell.keyEq_unique c "Section" "DocType" h (by decide),
    Cell.keyEq_unique c "Section" "JobID" h (by decide),
    Cell.keyEq_unique c "Section" "Project" h (by decide),
    Cell.keyEq_unique c "Section" "Client" h (by decide),
    Cell.keyEq_unique c "Section" "Address" h (by decide),
    Cell.keyEq_unique c "Section" "Date" h (by decide),
    Cell.keyEq_unique c "Section" "ReceiptsTotal" h (by decide),
    h]
  simp

theorem isTableTerm_not_section (c : Cell) (h : isTableTerm c = true) :
    c.keyEq "Section" = false := by
  cases c with
  | num q => rfl
  | str s =>
    by_contra hne
    have hb : (pyStrip s == "Section") = true := by
      cases hv : (pyStrip s == "Section") with
      | true => rfl
      | false => exact absurd hv (by simpa [Cell.keyEq] using hne)
    have hsec : pyStrip s = "Section" := eq_of_beq hb
    simp only [isTableTerm, Cell.keyEq, hsec] at h
    exact absurd h (by decide)

theorem stepTop_section_mode (m : Meta) (t : Totals) (ls : List EstimateLine)
    (as : List OwnerAllowance) (mo : Mode) (c : Cell) (cs : List Cell)
    (h : c.keyEq "Section" = true) :
    stepTop ⟨m, t, ls, as, mo⟩ (c :: cs) = ⟨m, t, ls, as, .table⟩ := by
  simp only [stepTop, topKey_section_of_keyEq c h]

/-- Rows without a `Section` or allowances-marker first cell, processed in
top phase, keep the phase and never touch the line-item list. -/
theorem foldl_top_keeps (rows : List Row)
    (h : ∀ r ∈ rows, r = [] ∨ (firstKeyIs r "Section" = false
      ∧ firstKeyIs r allowancesMarker = false))
    (st : LoadState) (hmode : st.mode = .top) :
    (List.foldl loadStep st rows).mode = .top
      ∧ (List.foldl loadStep st rows).lines = st.lines := by
  induction rows generalizing st with
  | nil => exact ⟨hmode, rfl⟩
  | cons r rows ih =>
    have hr := h r (by simp)
    have hrest : ∀ x ∈ rows, x = [] ∨ (firstKeyIs x "Section" = false
        ∧ firstKeyIs x allowancesMarker = false) := fun x hx => h x (by simp [hx])
    rw [List.foldl_cons]
    have hstep : (loadStep st r).mode = .top ∧ (loadStep st r).lines = st.lines := by
      rw [loadStep_top st r hmode]
      rcases hr with rfl | ⟨h1, h2⟩
      · rw [stepTop_nil]
        exact ⟨hmode, rfl⟩
      · cases r with
        | nil =>
          rw [stepTop_nil]
          exact ⟨hmode, rfl⟩
        | cons c cs =>
          simp only [firstKeyIs] at h1 h2
          exact ⟨by
            rw [stepTop_mode_keep st c cs (topKey_ne_section c h1)
              (topKey_ne_marker c h2)]
            exact hmode,
            stepTop_lines _ _⟩
    obtain ⟨ihm, ihl⟩ := ih hrest (loadStep st r) hstep.1
    exact ⟨ihm, by rw [ihl, hstep.2]⟩

/-- When no remaining row has first cell `Section` and the decoder is not
in table phase, no further row ever becomes a line item. -/
theorem foldl_lines_no_section (rows : List Row)
    (h : ∀ r ∈ rows, firstKeyIs r "Section" = false)
    (st : LoadState) (hmode : st.mode ≠ .table) :
    (List.foldl loadStep st rows).lines = st.lines := by
  induction rows generalizing st with
  | nil => rfl
  | cons r rows ih =>
    rw [List.foldl_cons]
    have hr := h r (by simp)
    have hrest : ∀ x ∈ rows, firstKeyIs x "Section" = false :=
      fun x hx => h x (by simp [hx])
    have hkeep : (loadStep st r).lines = st.lines ∧ (loadStep st r).mode ≠ .table := by
      obtain ⟨m, t, ls, as, mo⟩ := st
      cases mo with
      | top =>
        cases r with
        | nil => exact ⟨rfl, fun hx => nomatch hx⟩
        | cons c cs =>
          simp only [firstKeyIs] at hr
          constructor
          · rw [loadStep_top_eq]
            exact stepTop_lines _ _
          · rw [loadStep_top_eq]
            rcases stepTop_mode_no_section ⟨m, t, ls, as, .top⟩ c cs
                (topKey_ne_section c hr) with hm | hm <;>
              rw [hm] <;> simp
      | table => exact absurd rfl hmode
      | allowHeader =>
        rw [loadStep_allowHeader]
        exact ⟨rfl, fun hx => nomatch hx⟩
      | allowScan =>
        cases r with
        | nil => exact ⟨rfl, fun hx => nomatch hx⟩
        | cons c cs =>
          by_cases hoat : c.keyEq "OwnerAllowancesTotal" = true
          · rw [loadStep_allowScan_OAT _ _ _ _ _ _ hoat]
            exact ⟨rfl, by simp⟩
          · have hf : c.keyEq "OwnerAllowancesTotal" = false := by
              cases hv : c.keyEq "OwnerAllowancesTotal" with
              | true => exact absurd hv hoat
              | false => rfl
            have hstep : loadStep ⟨m, t, ls, as, .allowScan⟩ (c :: cs)
                = ⟨m, t, ls, as ++ [rowToAllowance (c :: cs)], .allowScan⟩ := by
              show (if c.keyEq "OwnerAllowancesTotal" then _ else _) = _
              rw [hf]
              rfl
            rw [hstep]
            exact ⟨rfl, by simp⟩
    rw [ih hrest _ hkeep.2, hkeep.1]

/-- C7 counterexample: the claim says a fully blank row inside the table
is skipped without terminating it, but a zero-cell row (which the csv
reader yields for a blank line) terminates the table: the decoder keeps
only the first item here while the claimed scan keeps both. -/
theorem C7_counterexample :
    ¬ ((load_quote_from_csv ⟨2024, 1, 1⟩ (some
        [[Cell.str "Section"],
         [Cell.str "A", Cell.str "B", Cell.str "", Cell.str "", Cell.num 1, Cell.num 2],
         [],
         [Cell.str "C", Cell.str "D", Cell.str "", Cell.str "", Cell.num 3, Cell.num 4]])).2.1
      = specC7lines
        [[Cell.str "Section"],
         [Cell.str "A", Cell.str "B", Cell.str "", Cell.str "", Cell.num 1, Cell.num 2],
         [],
         [Cell.str "C", Cell.str "D", Cell.str "", Cell.str "", Cell.num 3, Cell.num 4]]) := by
  decide

/-- C7 as amended: in a file made of a prefix of rows that are zero-cell
or whose first cell is neither `Section` nor the allowances marker, then
the `Section` header row, then the table, the table starts at that header
row and consumes rows until a zero-cell row, a row whose first cell is
`Subtotal`, `GrandTotal` or the allowances marker, or end of file; rows of
blank cells (with at least one cell) inside the table are skipped without
terminating it; rows after the terminator are not added as line items as
long as no later row has first cell `Section` (such a row would start the
table again). -/
theorem C7_table_extent (today : Date) (pre items rest : List Row) (hdr : Row)
    (hpre : ∀ r ∈ pre, r = [] ∨ (firstKeyIs r "Section" = false
      ∧ firstKeyIs r allowancesMarker = false))
    (hhdr : firstKeyIs hdr "Section" = true)
    (hitems : ∀ r ∈ items, goodItem r = true)
    (hrest : rest = [] ∨ ∃ t after, rest = t :: after
      ∧ (t = [] ∨ firstIsTerm t = true)
      ∧ ∀ r ∈ after, firstKeyIs r "Section" = false) :
    (load_quote_from_csv today (some (pre ++ [hdr] ++ items ++ rest))).2.1
      = (items.filter (fun r => !rowBlank r)).map rowToLine := by
  obtain ⟨c, cs, rfl⟩ : ∃ c cs, hdr = c :: cs := by
    cases hdr with
    | nil => exact absurd hhdr (by simp [firstKeyIs])
    | cons c cs => exact ⟨c, cs, rfl⟩
  have hc : c.keyEq "Section" = true := by simpa [firstKeyIs] using hhdr
  rw [load_some, List.foldl_append, List.foldl_append, List.foldl_append]
  have h1 := foldl_top_keeps pre hpre (initState today) rfl
  obtain ⟨m1, t1, ls1, as1, mo1, hst1⟩ : ∃ m1 t1 ls1 as1 mo1,
      List.foldl loadStep (initState today) pre = ⟨m1, t1, ls1, as1, mo1⟩ :=
    ⟨_, _, _, _, _, rfl⟩
  rw [hst1] at h1
  rw [hst1]
  have hmo1 : mo1 = .top := h1.1
  have hls1 : ls1 = [] := by
    have := h1.2
    simpa [initState] using this
  subst hmo1
  subst hls1
  have hhdrStep : List.foldl loadStep ⟨m1, t1, [], as1, Mode.top⟩ [c :: cs]
      = ⟨m1, t1, [], as1, Mode.table⟩ := by
    rw [List.foldl_cons, List.foldl_nil, loadStep_top_eq,
      stepTop_section_mode m1 t1 [] as1 .top c cs hc]
  rw [hhdrStep]
  have hscan := foldl_table_scan m1 t1 [] as1 items [] hitems
  rw [List.append_nil] at hscan
  rw [hscan, List.foldl_nil, List.nil_append]
  rcases hrest with rfl | ⟨t, after, rfl, ht, hafter⟩
  · rw [List.foldl_nil]
  · rcases ht with rfl | hterm
    · rw [List.foldl_cons, loadStep_table_nil,
        foldl_lines_no_section after hafter _ (by simp)]
    · obtain ⟨c2, cs2, rfl⟩ : ∃ c2 cs2, t = c2 :: cs2 := by
        cases t with
        | nil => exact absurd hterm (by simp [firstIsTerm])
        | cons c2 cs2 => exact ⟨c2, cs2, rfl⟩
      have hterm2 : isTableTerm c2 = true := by simpa [firstIsTerm] using hterm
      rw [List.foldl_cons, loadStep_table_term _ _ _ _ _ _ hterm2,
        foldl_lines_no_section after hafter _ (by
          rcases stepTop_mode_no_section
            ⟨m1, t1, (items.filter (fun r => !rowBlank r)).map rowToLine, as1, .top⟩
            c2 cs2 (topKey_ne_section c2 (isTableTerm_not_section c2 hterm2)) with hm | hm <;>
            rw [hm] <;> simp),
        stepTop_lines]

/-- Witness for the amended C7 at a concrete file: one real item, one
blank-cell row (skipped), a `Subtotal` terminator and a trailing row. -/
theorem C7_witness :
    (load_quote_from_csv ⟨2024, 1, 1⟩ (some
        ([[Cell.str "DocType", Cell.str "quote"]]
          ++ [[Cell.str "Section"]]
          ++ [[Cell.str "A", Cell.str "B"], [Cell.str " "]]
          ++ [[Cell.str "Subtotal", Cell.num 5], [Cell.str "Z"]]))).2.1
      = (([[Cell.str "A", Cell.str "B"], [Cell.str " "]] : List Row).filter
          (fun r => !rowBlank r)).map rowToLine :=
  C7_table_extent ⟨2024, 1, 1⟩
    [[Cell.str "DocType", Cell.str "quote"]]
    [[Cell.str "A", Cell.str "B"], [Cell.str " "]]
    [[Cell.str "Subtotal", Cell.num 5], [Cell.str "Z"]]
    [Cell.str "Section"]
    (by decide) (by decide) (by decide)
    (Or.inr ⟨[Cell.str "Subtotal", Cell.num 5], [[Cell.str "Z"]], rfl,
      by decide, by decide⟩)

/-! ## C9: unparseable date -/

set_option maxHeartbeats 2000000 in
theorem keyEq_date_of_topKey (c : Cell) (h : topKey c = .date) :
    c.keyEq "Date" = true := by
  unfold topKey at h
  repeat' split at h
  all_goals simp_all

theorem stepTop_doc_date (st : LoadState) (r : Row)
    (h : firstKeyIs r "Date" = true → 1 < r.length →
      parse_mmddyyyy (textAt r 1) = none) :
    (stepTop st r).meta.doc_date = st.meta.doc_date := by
  cases r with
  | nil => rfl
  | cons c cs =>
    cases hk : topKey c
    case date =>
      have hkey : c.keyEq "Date" = true := keyEq_date_of_topKey c hk
      simp only [stepTop, hk]
      split
      · rename_i hlen
        rw [h (by simpa [firstKeyIs] using hkey) hlen]
      · rfl
    all_goals simp only [stepTop, hk]
    all_goals repeat' split
    all_goals rfl

theorem loadStep_doc_date (st : LoadState) (r : Row)
    (h : firstKeyIs r "Date" = true → 1 < r.length →
      parse_mmddyyyy (textAt r 1) = none) :
    (loadStep st r).meta.doc_date = st.meta.doc_date := by
  obtain ⟨m, t, ls, as, mo⟩ := st
  cases mo with
  | top => exact stepTop_doc_date _ _ h
  | table =>
    cases r with
    | nil => rfl
    | cons c cs =>
      by_cases hb : isTableTerm c = true
      · rw [loadStep_table_term _ _ _ _ _ _ hb]
        exact stepTop_doc_date _ _ h
      · have hb2 : isTableTerm c = false := by
          cases hv : isTableTerm c with
          | true => exact absurd hv hb
          | false => rfl
        cases hbl : rowBlank (c :: cs) with
        | true =>
          have hstep : loadStep ⟨m, t, ls, as, .table⟩ (c :: cs)
              = ⟨m, t, ls, as, .table⟩ := by
            show (if isTableTerm c then _ else _) = _
            rw [hb2, hbl]
            rfl
          rw [hstep]
        | false =>
          have hstep : loadStep ⟨m, t, ls, as, .table⟩ (c :: cs)
              = ⟨m, t, ls ++ [rowToLine (c :: cs)], as, .table⟩ := by
            show (if isTableTerm c then _ else _) = _
            rw [hb2, hbl]
            rfl
          rw [hstep]
  | allowHeader => rfl
  | allowScan =>
    cases r with
    | nil => rfl
    | cons c cs =>
      by_cases hoat : c.keyEq "OwnerAllowancesTotal" = true
      · rw [loadStep_allowScan_OAT _ _ _ _ _ _ hoat]
      · have hf : c.keyEq "OwnerAllowancesTotal" = false := by
          cases hv : c.keyEq "OwnerAllowancesTotal" with
          | true => exact absurd hv hoat
          | false => rfl
        have hstep : loadStep ⟨m, t, ls, as, .allowScan⟩ (c :: cs)
            = ⟨m, t, ls, as ++ [rowToAllowance (c :: cs)], .allowScan⟩ := by
          show (if c.keyEq "OwnerAllowancesTotal" then _ else _) = _
          rw [hf]
          rfl
        rw [hstep]

theorem foldl_doc_date (rows : List Row)
    (h : ∀ r ∈ rows, firstKeyIs r "Date" = true → 1 < r.length →
      parse_mmddyyyy (textAt r 1) = none)
    (st : LoadState) :
    (List.foldl loadStep st rows).meta.doc_date = st.meta.doc_date := by
  induction rows generalizing st with
  | nil => rfl
  | cons r rows ih =>
    rw [List.foldl_cons, ih (fun x hx => h x (by simp [hx])),
      loadStep_doc_date st r (h r (by simp))]

/-- C9: when no `Date` key/value row of the file carries a cell that
parses against `MM-DD-YYYY`, the decoded document date stays at its
default, the date of the day the load runs, and the load completes. -/
theorem C9_unparseable_date_defaults_to_today (today : Date) (rows : List Row)
    (h : ∀ r ∈ rows, firstKeyIs r "Date" = true → 1 < r.length →
      parse_mmddyyyy (textAt r 1) = none) :
    Option.map Meta.doc_date (load_quote_from_csv today (some rows)).1
      = some today := by
  rw [load_some]
  show some ((List.foldl loadStep (initState today) rows).meta.doc_date) = some today
  rw [foldl_doc_date rows h (initState today)]
  rfl

/-- Witness for C9: a file whose `Date` row holds `not-a-date`. -/
theorem C9_witness :
    Option.map Meta.doc_date (load_quote_from_csv ⟨2024, 5, 6⟩ (some
      [[Cell.str "Date", Cell.str "not-a-date"],
       [Cell.str "Project", Cell.str "X"]])).1
      = some ⟨2024, 5, 6⟩ :=
  C9_unparseable_date_defaults_to_today ⟨2024, 5, 6⟩
    [[Cell.str "Date", Cell.str "not-a-date"],
     [Cell.str "Project", Cell.str "X"]]
    (by decide)

/-! ## C10: the decoder never raises -/

theorem catchV_floatE (c : Cell) : catchV (floatE c) 0 = .ok (cellFloat c) := by
  cases hc : Cell.parseFloat c <;> simp [floatE, catchV, cellFloat, hc]

theorem catchVT_floatE (c : Cell) : catchVT (floatE c) 0 = .ok (cellFloat c) := by
  cases hc : Cell.parseFloat c <;> simp [floatE, catchVT, cellFloat, hc]

theorem catchVT_last (c : Cell) (cs : List Cell) :
    catchVT ((lastCellE (c :: cs)).bind floatE) 0
      = .ok (cellFloat ((c :: cs).getLast?.getD (.str ""))) := by
  cases hl : (c :: cs).getLast? with
  | none => exact absurd hl (by simp)
  | some x =>
    rw [show lastCellE (c :: cs) = .ok x from by rw [lastCellE, hl]]
    show catchVT (floatE x) 0 = _
    rw [catchVT_floatE]
    rfl

theorem catchV_floatAtBodyE (r : Row) (k : ℕ) :
    catchV (floatAtBodyE r k) 0 = .ok (floatAt r k) := by
  unfold floatAtBodyE
  split
  · rename_i h
    obtain ⟨c, hc⟩ : ∃ c, r.get? k = some c := by
      rw [List.get?_eq_getElem?]
      exact ⟨_, List.getElem?_eq_getElem h⟩
    have hd : r.getD k (.str "") = c := by
      rw [List.getD_eq_getElem?_getD, ← List.get?_eq_getElem?, hc]
      rfl
    rw [show floatAt r k = (if c.isBlank then 0
        else (Cell.parseFloat c).getD 0) from by rw [floatAt, hc], hd]
    cases hb : c.isBlank with
    | true => simp [hb, catchV]
    | false =>
      cases hp : Cell.parseFloat c <;> simp [floatE, catchV, hp, hb]
  · rename_i h
    have hg : r.get? k = none := by
      rw [List.get?_eq_getElem?]
      exact List.getElem?_eq_none (by omega)
    rw [show floatAt r k = 0 from by rw [floatAt, hg]]
    simp [catchV]

theorem bindE_ok {A B : Type} (a : A) (f : A → Except PyErr B) :
    (Bind.bind (Except.ok a) f : Except PyErr B) = f a := rfl

theorem pureE {A : Type} (a : A) : (Pure.pure a : Except PyErr A) = Except.ok a := rfl

theorem stepTopE_ok (st : LoadState) (r : Row) :
    stepTopE st r = .ok (stepTop st r) := by
  cases r with
  | nil => rfl
  | cons c cs =>
    cases hk : topKey c
    all_goals simp only [stepTopE, stepTop, hk, cellE, List.get?, bindE_ok, pureE]
    case date =>
      cases cs with
      | nil => rfl
      | cons d ds =>
        have hlen : 1 < (c :: d :: ds).length := by
          simp only [List.length_cons]
          omega
        rw [if_pos hlen, if_pos hlen]
        simp only [List.get?, bindE_ok]
        cases hp : parse_mmddyyyy d.text <;>
          simp [hp, textAt, List.getD, List.get?, pureE]
    case receipts =>
      cases cs with
      | nil => rfl
      | cons d ds =>
        have hlen : 1 < (c :: d :: ds).length := by
          simp only [List.length_cons]
          omega
        rw [if_pos hlen, if_pos hlen]
        simp only [List.get?, bindE_ok]
        rw [catchVT_floatE]
        rfl
    case subtotal =>
      rw [catchVT_last]
      rfl
    case grandTotal =>
      rw [catchVT_last]
      rfl
    all_goals cases cs
    all_goals try rfl
    all_goals rename_i d ds
    all_goals (
      have hlen : 1 < (c :: d :: ds).length := by
        simp only [List.length_cons]
        omega
      rw [if_pos hlen, if_pos hlen]
      simp only [List.get?, bindE_ok, pureE])
    all_goals rfl

theorem loadStepE_ok (st : LoadState) (r : Row) :
    loadStepE st r = .ok (loadStep st r) := by
  obtain ⟨m, t, ls, as, mo⟩ := st
  cases mo with
  | top => exact stepTopE_ok _ _
  | table =>
    cases r with
    | nil => rfl
    | cons c cs =>
      have hL : loadStepE ⟨m, t, ls, as, .table⟩ (c :: cs)
          = (if isTableTerm c then stepTopE ⟨m, t, ls, as, .top⟩ (c :: cs)
             else if rowBlank (c :: cs) then pure ⟨m, t, ls, as, .table⟩
             else do
               let hours ← catchV (floatAtBodyE (c :: cs) 4) 0
               let rate ← catchV (floatAtBodyE (c :: cs) 5) 0
               pure ⟨m, t, ls ++ [(⟨textAt (c :: cs) 0, textAt (c :: cs) 1,
                 textAt (c :: cs) 3, hours, rate, textAt (c :: cs) 2⟩ : EstimateLine)],
                 as, .table⟩) := rfl
      have hR : loadStep ⟨m, t, ls, as, .table⟩ (c :: cs)
          = (if isTableTerm c then stepTop ⟨m, t, ls, as, .top⟩ (c :: cs)
             else if rowBlank (c :: cs) then ⟨m, t, ls, as, .table⟩
             else ⟨m, t, ls ++ [rowToLine (c :: cs)], as, .table⟩) := rfl
      rw [hL, hR]
      by_cases hb : isTableTerm c = true
      · rw [if_pos hb, if_pos hb]
        exact stepTopE_ok _ _
      · rw [if_neg hb, if_neg hb]
        by_cases hbl : rowBlank (c :: cs) = true
        · rw [if_pos hbl, if_pos hbl]
          rfl
        · rw [if_neg hbl, if_neg hbl]
          simp only [catchV_floatAtBodyE, bindE_ok, pureE]
          rfl
  | allowHeader => rfl
  | allowScan =>
    cases r with
    | nil => rfl
    | cons c cs =>
      have hL : loadStepE ⟨m, t, ls, as, .allowScan⟩ (c :: cs)
          = (if c.keyEq "OwnerAllowancesTotal" then pure ⟨m, t, ls, as, .top⟩
             else do
               let qty ← catchV (floatAtBodyE (c :: cs) 1) 0
               let unit ← catchV (floatAtBodyE (c :: cs) 2) 0
               pure ⟨m, t, ls, as ++ [(⟨textAt (c :: cs) 0, qty, unit⟩ :
                 OwnerAllowance)], .allowScan⟩) := rfl
      have hR : loadStep ⟨m, t, ls, as, .allowScan⟩ (c :: cs)
          = (if c.keyEq "OwnerAllowancesTotal" then ⟨m, t, ls, as, .top⟩
             else ⟨m, t, ls, as ++ [rowToAllowance (c :: cs)], .allowScan⟩) := rfl
      rw [hL, hR]
      by_cases hoat : c.keyEq "OwnerAllowancesTotal" = true
      · rw [if_pos hoat, if_pos hoat]
        rfl
      · rw [if_neg hoat, if_neg hoat]
        simp only [catchV_floatAtBodyE, bindE_ok, pureE]
        rfl

theorem foldE_ok (rows : List Row) (st : LoadState) :
    foldE st rows = .ok (List.foldl loadStep st rows) := by
  induction rows generalizing st with
  | nil => rfl
  | cons r rows ih =>
    show (match loadStepE st r with
      | .ok st2 => foldE st2 rows
      | .error e => .error e) = _
    rw [loadStepE_ok]
    show foldE (loadStep st r) rows = _
    rw [ih, List.foldl_cons]

/-- C10: on every existing file content the decoder terminates and raises
no exception: the exception-level translation, in which every indexing and
conversion is a possibly-raising operation and only the try/except blocks
of the source catch, returns `.ok` of the total decoder result for every
row list. -/
theorem C10_decoder_total (today : Date) (rows : List Row) :
    load_quote_from_csvE today rows
      = .ok (load_quote_from_csv today (some rows)) := by
  rw [load_quote_from_csvE, foldE_ok, load_some]
  rfl

end FormTool
